import Mathlib

/-!
Verification of the ingestion-and-categorization core of a bookkeeping
application for an independent midwife practice.  The Python source is
shallowly embedded: pure functions become Lean functions, in-place mutation
of transactions becomes explicit state passing, `Decimal` becomes an exact
mantissa-times-power-of-ten representation, and fallible code returns
`Except`/`Option`.  All definitions are executable and kernel-reducible so
that concrete runs can be settled by `decide`/`rfl`.
-/

/-! ## Basic character and string helpers

Python string primitives (`str.strip`, `str.lower`, `str.replace`,
`in`, `startswith`) re-implemented structurally over `List Char` so the
kernel can evaluate them.  Case conversion models Python `str.lower` on
the ASCII range, which covers every pattern the program compares.
-/

/-- Characters stripped by Python `str.strip()` (ASCII whitespace plus the
non-breaking space, the only whitespace characters the inputs contain). -/
def pyIsSpace (c : Char) : Bool :=
  c == ' ' || c == '\t' || c == '\n' || c == '\r' ||
  c == '\x0b' || c == '\x0c' || c == ' '

def dropLeadingSpaces (l : List Char) : List Char :=
  l.dropWhile pyIsSpace

/-- Python `str.strip()`: drop leading and trailing whitespace. -/
def pyStripChars (l : List Char) : List Char :=
  ((dropLeadingSpaces l.reverse).reverse).dropWhile pyIsSpace

def pyStrip (s : String) : String :=
  String.mk (pyStripChars s.data)

def lowerStr (s : String) : String :=
  String.mk (s.data.map Char.toLower)

def upperStr (s : String) : String :=
  String.mk (s.data.map Char.toUpper)

/-- Does the second list start with the first one? -/
def chStarts : List Char → List Char → Bool
  | [], _ => true
  | _ :: _, [] => false
  | p :: ps, v :: vs => p == v && chStarts ps vs

/-- Python `pattern in value` on character lists (substring test). -/
def chSub (p : List Char) : List Char → Bool
  | [] => chStarts p []
  | v :: vs => chStarts p (v :: vs) || chSub p vs

/-- Python `str.startswith` on whole strings. -/
def startsWithS (s p : String) : Bool := chStarts p.data s.data

/-- Python `str.endswith` on whole strings. -/
def endsWithS (s p : String) : Bool := chStarts p.data.reverse s.data.reverse

/-- Python `str.replace(pattern, replacement)` (non-overlapping, left to
right); `pattern` is assumed non-empty, as at every call site. -/
def chReplaceF (p r : List Char) : Nat → List Char → List Char
  | 0, l => l
  | _ + 1, [] => []
  | f + 1, c :: cs =>
    if chStarts p (c :: cs) then r ++ chReplaceF p r f (cs.drop (p.length - 1))
    else c :: chReplaceF p r f cs

def chReplace (p r l : List Char) : List Char :=
  chReplaceF p r l.length l

def strReplace (s p r : String) : String :=
  String.mk (chReplace p.data r.data s.data)

/-- Join a list of strings with a separator (Python `sep.join(row)`). -/
def joinSep (sep : String) : List String → String
  | [] => ""
  | [s] => s
  | s :: rest => s ++ sep ++ joinSep sep rest

/-- Zero-padded decimal rendering, modelling Python `"%0Nd" % n`. -/
def padZeros (w : Nat) (n : Nat) : String :=
  let s := toString n
  if s.length < w then String.mk (List.replicate (w - s.length) '0') ++ s else s

def digitsToNat (l : List Char) : Nat :=
  l.foldl (fun a c => a * 10 + (c.toNat - 48)) 0

def allDigits (l : List Char) : Bool :=
  !l.isEmpty && l.all Char.isDigit

/-! ## Exact decimals

Python's `decimal.Decimal` holds a sign, a coefficient and an exponent and
is exact.  `Dec` mirrors that: the value is `mant * 10 ^ exp`. -/

structure Dec where
  mant : Int
  exp : Int
deriving Repr, DecidableEq

/-- The rational value of an exact decimal. -/
def Dec.val (d : Dec) : ℚ :=
  if 0 ≤ d.exp then (d.mant : ℚ) * (10 : ℚ) ^ d.exp.toNat
  else (d.mant : ℚ) / (10 : ℚ) ^ d.exp.natAbs

/-- Python `-abs(d)` on a decimal. -/
def Dec.negAbs (d : Dec) : Dec := ⟨-(d.mant.natAbs : Int), d.exp⟩

/-- Python `abs(d)` on a decimal. -/
def Dec.absD (d : Dec) : Dec := ⟨(d.mant.natAbs : Int), d.exp⟩

/-- Python `d == Decimal('0')`: a decimal is zero iff its coefficient is. -/
def Dec.isZero (d : Dec) : Bool := d.mant == 0

/-- Deterministic textual rendering of a decimal, standing in for Python
`str(Decimal)` where it is only hashed for identity purposes. -/
def Dec.repr8 (d : Dec) : String :=
  toString d.mant ++ "e" ++ toString d.exp

/-- Parser for the `decimal.Decimal` literal grammar actually reachable
here: `[+-] digits [. digits] [eE [+-] digits]` with at least one digit in
the coefficient.  (`NaN`/`Infinity` spellings are unreachable because the
caller requires a digit in the text before constructing the decimal.) -/
def parseDecimalLit (cs : List Char) : Option Dec :=
  -- optional sign
  let (neg, cs) : Bool × List Char :=
    match cs with
    | '-' :: rest => (true, rest)
    | '+' :: rest => (false, rest)
    | _ => (false, cs)
  let intPart := cs.takeWhile Char.isDigit
  let cs1 := cs.dropWhile Char.isDigit
  let (fracPart, cs2) : List Char × List Char :=
    match cs1 with
    | '.' :: rest => (rest.takeWhile Char.isDigit, rest.dropWhile Char.isDigit)
    | _ => ([], cs1)
  if intPart.isEmpty && fracPart.isEmpty then none
  else
    let coeff : Nat := digitsToNat (intPart ++ fracPart)
    let mant : Int := if neg then -(coeff : Int) else (coeff : Int)
    match cs2 with
    | [] => some ⟨mant, -(fracPart.length : Int)⟩
    | e :: rest =>
      if e == 'e' || e == 'E' then
        let (eneg, rest) : Bool × List Char :=
          match rest with
          | '-' :: r2 => (true, r2)
          | '+' :: r2 => (false, r2)
          | _ => (false, rest)
        if allDigits rest then
          let ev : Int := if eneg then -(digitsToNat rest : Int) else (digitsToNat rest : Int)
          some ⟨mant, ev - (fracPart.length : Int)⟩
        else none
      else none

def exceptDecEq {ε α : Type} [DecidableEq ε] [DecidableEq α] :
    DecidableEq (Except ε α) := fun x y =>
  match x, y with
  | .ok a, .ok b =>
    if h : a = b then isTrue (by rw [h])
    else isFalse (by intro hc; cases hc; exact h rfl)
  | .error a, .error b =>
    if h : a = b then isTrue (by rw [h])
    else isFalse (by intro hc; cases hc; exact h rfl)
  | .ok _, .error _ => isFalse (by intro hc; cases hc)
  | .error _, .ok _ => isFalse (by intro hc; cases hc)

instance {ε α : Type} [DecidableEq ε] [DecidableEq α] : DecidableEq (Except ε α) :=
  exceptDecEq

def exceptIsOk {ε α : Type} : Except ε α → Bool
  | .ok _ => true
  | .error _ => false

/-! ## Amount normalizer (`src/lib/belgian_numbers.py`) -/

/-- Embedding of `parse_belgian_amount`: strip whitespace and currency
tokens, extract a trailing or leading sign, require a digit, replace `.`
(thousands) then `,` (decimal), and parse the residue as an exact decimal.
Raised `ValueError`s become `Except.error` carrying the message. -/
def parseBelgianAmount (value : String) : Except String Dec :=
  let text := pyStrip value
  if text = "" then .error "Amount is required"
  else
    let text := pyStrip (strReplace text " " " ")
    let text := pyStrip (strReplace (strReplace text "EUR" "") "â‚¬" "")
    let text := strReplace text " " ""
    let (sign, text) : String × String :=
      if endsWithS text "-" then ("-", String.mk (text.data.dropLast))
      else if endsWithS text "+" then ("", String.mk (text.data.dropLast))
      else ("", text)
    let (sign, text) : String × String :=
      if startsWithS text "+" || startsWithS text "-" then
        (if startsWithS text "-" then "-" else sign, String.mk (text.data.drop 1))
      else (sign, text)
    if !(text.data.any Char.isDigit) then
      .error ("Invalid Belgian amount: " ++ value)
    else
      let normalized := strReplace (strReplace text "." "") "," "."
      match parseDecimalLit ((sign ++ normalized).data) with
      | some d => .ok d
      | none => .error ("Invalid Belgian amount: " ++ value)

example : parseBelgianAmount "1.234,56" = .ok ⟨123456, -2⟩ := by decide
example : parseBelgianAmount "-38,51" = .ok ⟨-3851, -2⟩ := by decide
example : parseBelgianAmount "50" = .ok ⟨50, 0⟩ := by decide
example : parseBelgianAmount "abc" = .error "Invalid Belgian amount: abc" := by decide
example : Dec.val ⟨123456, -2⟩ = 1234.56 := by norm_num [Dec.val]

/-! ## Calendar dates

`datetime.date` values (no time component), with the `strptime` format
validation the importers rely on. -/

structure PyDate where
  year : Nat
  month : Nat
  day : Nat
deriving Repr, DecidableEq

def isLeapYear (y : Nat) : Bool :=
  (y % 4 == 0 && y % 100 != 0) || y % 400 == 0

def daysInMonth (y m : Nat) : Nat :=
  if m == 2 then (if isLeapYear y then 29 else 28)
  else if m == 4 || m == 6 || m == 9 || m == 11 then 30
  else 31

/-- A calendar-valid date with a four-digit year, as `strptime` with `%Y`
accepts. -/
def validDate (y m d : Nat) : Bool :=
  1000 ≤ y && y ≤ 9999 && 1 ≤ m && m ≤ 12 && 1 ≤ d && d ≤ daysInMonth y m

/-- `date.isoformat()`. -/
def PyDate.iso (d : PyDate) : String :=
  padZeros 4 d.year ++ "-" ++ padZeros 2 d.month ++ "-" ++ padZeros 2 d.day

/-- `date.strftime("%Y%m%d")`. -/
def PyDate.ymd (d : PyDate) : String :=
  padZeros 4 d.year ++ padZeros 2 d.month ++ padZeros 2 d.day

/-- Split a character list on a separator character. -/
def splitOnCh (sep : Char) : List Char → List (List Char)
  | [] => [[]]
  | c :: cs =>
    if c == sep then [] :: splitOnCh sep cs
    else match splitOnCh sep cs with
      | [] => [[c]]
      | p :: ps => (c :: p) :: ps

/-- A `strptime` day/month field: one or two digits. -/
def dmField (l : List Char) : Bool :=
  allDigits l && l.length ≤ 2

/-- A `strptime` `%Y` field: exactly four digits. -/
def yField (l : List Char) : Bool :=
  allDigits l && l.length == 4

/-- `datetime.strptime(s, "%d/%m/%Y")` (or with another separator),
returning a date only when the whole string matches and the date is
calendar-valid. -/
def strptimeDMY (sep : Char) (s : String) : Option PyDate :=
  match splitOnCh sep s.data with
  | [d, m, y] =>
    if dmField d && dmField m && yField y then
      let dv := digitsToNat d
      let mv := digitsToNat m
      let yv := digitsToNat y
      if validDate yv mv dv then some ⟨yv, mv, dv⟩ else none
    else none
  | _ => none

/-- `datetime.strptime(s, "%Y-%m-%d")`. -/
def strptimeYMD (s : String) : Option PyDate :=
  match splitOnCh '-' s.data with
  | [y, m, d] =>
    if yField y && dmField m && dmField d then
      let dv := digitsToNat d
      let mv := digitsToNat m
      let yv := digitsToNat y
      if validDate yv mv dv then some ⟨yv, mv, dv⟩ else none
    else none
  | _ => none

/-- `CSVImporter._parse_belgian_date`: try `%d/%m/%Y`, then `%d-%m-%Y`,
then `%Y-%m-%d`; error naming the text when none matches. -/
def parseBelgianDate (dateStr : String) : Except String PyDate :=
  let t := pyStrip dateStr
  match strptimeDMY '/' t with
  | some d => .ok d
  | none =>
    match strptimeDMY '-' t with
    | some d => .ok d
    | none =>
      match strptimeYMD t with
      | some d => .ok d
      | none => .error ("Cannot parse date: " ++ t)

example : parseBelgianDate "01/02/2025" = .ok ⟨2025, 2, 1⟩ := by decide
example : parseBelgianDate "29/02/2025" = .error "Cannot parse date: 29/02/2025" := by decide
example : parseBelgianDate "2025-12-31" = .ok ⟨2025, 12, 31⟩ := by decide

/-! ## Canonical transaction record (`src/models/transaction.py`) -/

structure Transaction where
  id : String
  sourceFile : String
  sourceType : String
  statementNumber : Option String
  transactionNumber : Option String
  bookingDate : PyDate
  valueDate : PyDate
  amount : Dec
  currency : String := "EUR"
  counterpartyName : Option String := none
  counterpartyIban : Option String := none
  counterpartyStreet : Option String := none
  counterpartyPostalCity : Option String := none
  counterpartyBic : Option String := none
  counterpartyCountry : Option String := none
  ownAccount : Option String := none
  communication : Option String := none
  description : Option String := none
  category : Option String := none
  matchedRuleId : Option String := none
  isTherapeutic : Bool := false
  isManualOverride : Bool := false
  isExcluded : Bool := false
  exclusionReason : Option String := none
deriving Repr, DecidableEq

/-- `Transaction.__post_init__`: validation run at construction.  A raised
`ValueError` becomes `Except.error`; on success the record is returned
unchanged. -/
def validateTransaction (t : Transaction) : Except String Transaction :=
  if t.sourceType ≠ "bank_csv" ∧ t.sourceType ≠ "mastercard_pdf" then
    .error ("Invalid source_type: " ++ t.sourceType)
  else if t.currency ≠ "EUR" then
    .error ("Only EUR currency supported, got: " ++ t.currency)
  else if t.amount.isZero then
    .error "Transaction amount cannot be zero"
  else if t.isTherapeutic ∧ t.category ≠ some "omzet" then
    .error "is_therapeutic can only be True for 'omzet' category"
  else .ok t

/-! ## Minimal regular-expression engine

The program uses `re` with `re.IGNORECASE` in two places: the fixed
Mastercard-settlement patterns (literals joined by `.*`) and the `regex`
rule kind.  This engine covers literal characters, `.`, and the `*`/`+`/`?`
quantifiers on single atoms — the constructs those patterns use; patterns
using other metacharacters fail to compile, as an unsupported stand-in for
`re.error`.  Matching is case-insensitive, baked in because every compiled
pattern in the program carries `re.IGNORECASE`.  Both the matcher and the
compiler run on explicit fuel so the kernel can evaluate them. -/

inductive RBase
  | chr (c : Char)
  | dot
deriving Repr, DecidableEq

inductive RQuant
  | one
  | star
  | plus
  | question
deriving Repr, DecidableEq

structure RAtom where
  base : RBase
  quant : RQuant
deriving Repr, DecidableEq

def atomMatch : RBase → Char → Bool
  | .dot, _ => true
  | .chr p, c => p.toLower == c.toLower

/-- Match a sequence of atoms at the start of the input (prefix semantics,
as inside `re.search` at a fixed position).  Fuel bounds the recursion;
`atoms.length + s.length + 1` always suffices. -/
def matchAtoms : Nat → List RAtom → List Char → Bool
  | 0, _, _ => false
  | _ + 1, [], _ => true
  | f + 1, a :: rest, s =>
    match a.quant with
    | .one =>
      match s with
      | [] => false
      | c :: cs => atomMatch a.base c && matchAtoms f rest cs
    | .star =>
      matchAtoms f rest s ||
        (match s with
         | [] => false
         | c :: cs => atomMatch a.base c && matchAtoms f (a :: rest) cs)
    | .plus =>
      match s with
      | [] => false
      | c :: cs => atomMatch a.base c && matchAtoms f (⟨a.base, .star⟩ :: rest) cs
    | .question =>
      matchAtoms f rest s ||
        (match s with
         | [] => false
         | c :: cs => atomMatch a.base c && matchAtoms f rest cs)

/-- `compiled.search(s)`: try to match at every start position. -/
def searchFrom (atoms : List RAtom) : List Char → Bool
  | [] => matchAtoms (atoms.length + 1) atoms []
  | c :: cs =>
    matchAtoms (atoms.length + (c :: cs).length + 1) atoms (c :: cs) || searchFrom atoms cs

def regexSearch (atoms : List RAtom) (s : String) : Bool :=
  searchFrom atoms s.data

/-- Compile the supported regex subset; `none` models `re.error` for
patterns outside it. -/
def compileChars : Nat → List Char → Option (List RAtom)
  | 0, _ => none
  | _ + 1, [] => some []
  | f + 1, c :: rest =>
    if c == '*' || c == '+' || c == '?' || c == '(' || c == ')' ||
       c == '[' || c == ']' || c == '|' || c == '^' || c == '$' ||
       c.toNat == 123 || c.toNat == 125 then none
    else
      let basePair : Option (RBase × List Char) :=
        if c == '\\' then
          match rest with
          | [] => none
          | e :: r2 => if e.isAlphanum then none else some (.chr e, r2)
        else some (if c == '.' then .dot else .chr c, rest)
      match basePair with
      | none => none
      | some (b, r2) =>
        match r2 with
        | q :: r3 =>
          if q == '*' then (compileChars f r3).map (⟨b, .star⟩ :: ·)
          else if q == '+' then (compileChars f r3).map (⟨b, .plus⟩ :: ·)
          else if q == '?' then (compileChars f r3).map (⟨b, .question⟩ :: ·)
          else (compileChars f r2).map (⟨b, .one⟩ :: ·)
        | [] => some [⟨b, .one⟩]

def compileRegex (pattern : String) : Option (List RAtom) :=
  compileChars (pattern.data.length + 1) pattern.data

/-- A plain-text pattern compiled as a list of literal atoms. -/
def litAtoms (s : String) : List RAtom :=
  s.data.map fun c => ⟨.chr c, .one⟩

example : regexSearch (litAtoms "MASTERCARD" ++ [⟨.dot, .star⟩] ++ litAtoms "AFREKENING")
    "Mastercard 123 Afrekening sep" = true := by decide
example : regexSearch (litAtoms "MASTERCARD" ++ [⟨.dot, .star⟩] ++ litAtoms "AFREKENING")
    "AFREKENING MASTERCARD" = false := by decide

/-! ## Categorization rule (`src/models/rule.py`) -/

structure CategoryRule where
  id : String
  pattern : String
  patternType : String
  matchField : String
  targetCategory : String
  priority : Int
  enabled : Bool := true
  isTherapeutic : Option Bool := none
  source : String := "manual"
  notes : Option String := none
deriving Repr, DecidableEq

/-- `CategoryRule.matches`: case-insensitive match of the rule pattern
against an optional field value; a missing value never matches. -/
def matchesRule (r : CategoryRule) (value : Option String) : Bool :=
  match value with
  | none => false
  | some v =>
    let vl := lowerStr v
    let pl := lowerStr r.pattern
    if r.patternType = "exact" then vl == pl
    else if r.patternType = "prefix" then chStarts pl.data vl.data
    else if r.patternType = "contains" then chSub pl.data vl.data
    else if r.patternType = "regex" then
      match compileRegex r.pattern with
      | some atoms => regexSearch atoms v
      | none => false
    else false

/-! ## Categorization engine (`src/services/categorizer.py`) -/

/-- Stable insertion of a rule into a priority-sorted list: the rule goes
after every rule of strictly smaller priority and before equal ones coming
later in the original list. -/
def insertByPriority (r : CategoryRule) : List CategoryRule → List CategoryRule
  | [] => [r]
  | s :: rest =>
    if s.priority < r.priority then s :: insertByPriority r rest
    else r :: s :: rest

/-- `sorted(rules, key=lambda r: r.priority)` — a stable sort ascending by
priority, as Python's `sorted` guarantees. -/
def sortByPriority : List CategoryRule → List CategoryRule
  | [] => []
  | r :: rest => insertByPriority r (sortByPriority rest)

def isDescriptionField (r : CategoryRule) : Bool :=
  r.matchField == "description"

def isCounterpartyField (r : CategoryRule) : Bool :=
  r.matchField == "counterparty_name" || r.matchField == "counterparty_iban"

/-- The categorizer's state after `Categorizer.__init__`: the sorted rule
list, the optional account-type lookup, and the two pre-filtered views. -/
structure Categorizer where
  rules : List CategoryRule
  getAccountType : Option (String → String)
  descriptionRules : List CategoryRule
  counterpartyRules : List CategoryRule

def Categorizer.init (rules : List CategoryRule)
    (getAccountType : Option (String → String)) : Categorizer :=
  let sorted := sortByPriority rules
  { rules := sorted
    getAccountType := getAccountType
    descriptionRules := sorted.filter isDescriptionField
    counterpartyRules := sorted.filter isCounterpartyField }

/-- `Categorizer._get_account_type_for_transaction`: `'standard'` when no
lookup was supplied or the transaction has no (or an empty) own account. -/
def accountTypeFor (c : Categorizer) (tx : Transaction) : String :=
  match c.getAccountType with
  | none => "standard"
  | some f =>
    match tx.ownAccount with
    | none => "standard"
    | some iban => if iban = "" then "standard" else f iban

/-- `Categorizer._get_field_value`: dynamic field lookup by name; unknown
fields yield no value. -/
def getFieldValue (tx : Transaction) (f : String) : Option String :=
  if f = "counterparty_name" then tx.counterpartyName
  else if f = "description" then tx.description
  else if f = "counterparty_iban" then tx.counterpartyIban
  else none

/-- The effect of a matched rule on a transaction: set category and
matched-rule id, clear the manual override, and apply the therapeutic
override when the rule carries one. -/
def applyRule (tx : Transaction) (r : CategoryRule) : Transaction :=
  let tx1 := { tx with
    category := some r.targetCategory
    matchedRuleId := some r.id
    isManualOverride := false }
  match r.isTherapeutic with
  | some b => { tx1 with isTherapeutic := b }
  | none => tx1

/-- Whether a rule fires on a transaction: it is enabled and its pattern
matches the value of its match field. -/
def fires (tx : Transaction) (r : CategoryRule) : Bool :=
  r.enabled && matchesRule r (getFieldValue tx r.matchField)

/-- `Categorizer._try_rules`: first firing rule wins; returns the possibly
updated transaction together with `(was_categorized, matched_rule_id)`. -/
def tryRules (tx : Transaction) : List CategoryRule → Transaction × Bool × Option String
  | [] => (tx, false, none)
  | r :: rest =>
    if !r.enabled then tryRules tx rest
    else if matchesRule r (getFieldValue tx r.matchField) then
      (applyRule tx r, true, some r.id)
    else tryRules tx rest

/-- `Categorizer.categorize`: skip already-categorized (without force),
excluded, and manually-overridden (without force) transactions; then apply
two-phase matching for `'maatschap'` accounts and the full rule list for
anyone else. -/
def categorize (c : Categorizer) (tx : Transaction) (force : Bool) :
    Transaction × Bool × Option String :=
  if tx.category.isSome && !force then (tx, false, none)
  else if tx.isExcluded then (tx, false, none)
  else if tx.isManualOverride && !force then (tx, false, none)
  else if accountTypeFor c tx = "maatschap" then
    -- phase 1: description rules; on no match, fall through (with the
    -- unchanged transaction `p1.1`) to the counterparty rules
    if (tryRules tx c.descriptionRules).2.1 then tryRules tx c.descriptionRules
    else tryRules (tryRules tx c.descriptionRules).1 c.counterpartyRules
  else tryRules tx c.rules

/-- Statistics record built by `Categorizer.categorize_all`. -/
structure CatStats where
  categorized : Nat
  uncategorized : Nat
  skipped : Nat
  rulesApplied : List (String × Nat)
  maatschap : Nat
  standard : Nat
deriving Repr, DecidableEq

/-- Bump a counter in the per-rule histogram (`collections.Counter`). -/
def bumpCount (k : String) : List (String × Nat) → List (String × Nat)
  | [] => [(k, 1)]
  | (k2, n) :: rest =>
    if k2 = k then (k2, n + 1) :: rest else (k2, n) :: bumpCount k rest

/-- One iteration of the `categorize_all` loop. -/
def catAllStep (c : Categorizer) (force : Bool) (tx : Transaction)
    (st : CatStats) : Transaction × CatStats :=
  if tx.isExcluded then (tx, { st with skipped := st.skipped + 1 })
  else
    let st1 :=
      if accountTypeFor c tx = "maatschap" then { st with maatschap := st.maatschap + 1 }
      else { st with standard := st.standard + 1 }
    let res := categorize c tx force
    let st2 :=
      if res.2.1 then
        { st1 with
          categorized := st1.categorized + 1
          rulesApplied :=
            match res.2.2 with
            | some rid =>
              -- Python `if rule_id:` — an empty id string is falsy
              if rid = "" then st1.rulesApplied else bumpCount rid st1.rulesApplied
            | none => st1.rulesApplied }
      else if res.1.category = none then { st1 with uncategorized := st1.uncategorized + 1 }
      else st1
    (res.1, st2)

def catAllGo (c : Categorizer) (force : Bool) :
    List Transaction → CatStats → List Transaction × CatStats
  | [], st => ([], st)
  | tx :: rest, st =>
    let (tx2, st2) := catAllStep c force tx st
    let (out, st3) := catAllGo c force rest st2
    (tx2 :: out, st3)

/-- `Categorizer.categorize_all`: the transactions after the in-place
mutation pass, together with the statistics record. -/
def categorizeAll (c : Categorizer) (txs : List Transaction) (force : Bool) :
    List Transaction × CatStats :=
  catAllGo c force txs ⟨0, 0, 0, [], 0, 0⟩

/-! ## Ledger importer (`src/services/csv_importer.py`) -/

/-- Deterministic 8-hex-digit digest.  Modelled from the spec: stands in
for `hashlib.md5(...).hexdigest()[:8]`, a library primitive outside
`src/`; every property proved here relies only on it being a fixed
deterministic function of its input string. -/
def md5Hex8 (s : String) : String :=
  let h := s.data.foldl (fun a c => (a * 131 + c.toNat + 7) % 4294967296) 5381
  let hexDigit := fun (n : Nat) => if n < 10 then Char.ofNat (48 + n) else Char.ofNat (87 + n)
  String.mk [hexDigit (h / 16 ^ 7 % 16), hexDigit (h / 16 ^ 6 % 16),
    hexDigit (h / 16 ^ 5 % 16), hexDigit (h / 16 ^ 4 % 16),
    hexDigit (h / 16 ^ 3 % 16), hexDigit (h / 16 ^ 2 % 16),
    hexDigit (h / 16 % 16), hexDigit (h % 16)]

/-- The compiled `MASTERCARD_SETTLEMENT_PATTERNS`: two `LITERAL.*LITERAL`
patterns and one literal customer reference, all case-insensitive. -/
def mastercardSettlementPatterns : List (List RAtom) :=
  [litAtoms "MASTERCARD" ++ [⟨.dot, .star⟩] ++ litAtoms "AFREKENING",
   litAtoms "KREDIETKAART" ++ [⟨.dot, .star⟩] ++ litAtoms "AFREKENING",
   litAtoms "6287522061"]

/-- `CSVImporter._is_mastercard_settlement`: search the description and the
counterparty name (both only when truthy, i.e. present and non-empty). -/
def isMastercardSettlement (tx : Transaction) : Bool :=
  (match tx.description with
   | some d => d != "" && mastercardSettlementPatterns.any (fun p => regexSearch p d)
   | none => false) ||
  (match tx.counterpartyName with
   | some nm => nm != "" && mastercardSettlementPatterns.any (fun p => regexSearch p nm)
   | none => false)

/-- `row[i]` with the out-of-range guard the source applies to the
trailing columns. -/
def colD (row : List String) (i : Nat) : String := (row.get? i).getD ""

/-- Python `s or None`. -/
def orNone (s : String) : Option String := if s = "" then none else some s

/-- The description column of a ledger row: the transaction description
when non-empty, otherwise the communications column. -/
def rowDescription (row : List String) : String :=
  if pyStrip (colD row 8) ≠ "" then pyStrip (colD row 8)
  else ((row.get? 14).map pyStrip).getD ""

/-- The identity of a ledger row: `{statement}-{sequence}` when both
numbers are present, otherwise the sentinel-prefixed content hash of
`(date, amount, description)` that gives numberless fee rows a stable,
repeatable identity. -/
def rowId (row : List String) (bookingDate : PyDate) (amount : Dec) : String :=
  if pyStrip (colD row 2) ≠ "" ∧ pyStrip (colD row 3) ≠ "" then
    pyStrip (colD row 2) ++ "-" ++ pyStrip (colD row 3)
  else
    "NONUM-" ++
      md5Hex8 (bookingDate.iso ++ "|" ++ amount.repr8 ++ "|" ++ rowDescription row)

/-- `CSVImporter._parse_row`: build a `Transaction` from a delimited row
(the line number passed in the source is used only by the caller's error
handler, not by the parse itself).  Raised exceptions become
`Except.error`.  The source stores the stripped statement and sequence
numbers and replaces them by `None` when empty on the hash path; since on
the statement-sequence path they are non-empty, that is `orNone` of the
stripped column in every case. -/
def parseRowE (row : List String) (sourceFile : String) : Except String Transaction :=
  match parseBelgianDate (colD row 1) with
  | .error e => .error e
  | .ok bookingDate =>
  match parseBelgianDate (colD row 9) with
  | .error e => .error e
  | .ok valueDate =>
  match parseBelgianAmount (colD row 10) with
  | .error e => .error e
  | .ok amount =>
  if upperStr (pyStrip (colD row 11)) ≠ "EUR" then
    .error ("Unsupported currency: " ++ upperStr (pyStrip (colD row 11)))
  else
    validateTransaction
      { id := rowId row bookingDate amount
        sourceFile := sourceFile
        sourceType := "bank_csv"
        statementNumber := orNone (pyStrip (colD row 2))
        transactionNumber := orNone (pyStrip (colD row 3))
        bookingDate := bookingDate
        valueDate := valueDate
        amount := amount
        currency := upperStr (pyStrip (colD row 11))
        counterpartyName := orNone (pyStrip (colD row 5))
        counterpartyIban := orNone (pyStrip (colD row 4))
        counterpartyStreet := orNone (pyStrip (colD row 6))
        counterpartyPostalCity := orNone (pyStrip (colD row 7))
        counterpartyBic := (row.get? 12).map pyStrip
        counterpartyCountry := (row.get? 13).map pyStrip
        ownAccount := orNone (pyStrip (colD row 0))
        communication := orNone (((row.get? 14).map pyStrip).getD "")
        description := some (rowDescription row) }

/-- An entry of `session.errors`. -/
structure ImportErr where
  file : String
  message : String
  line : Option Nat := none
  rawData : Option String := none
deriving Repr, DecidableEq

/-- The evolving state of one `import_file` run: the returned transaction
list, the session counters and errors, and the caller-supplied mutable
existing-ID set (modelled as a duplicate-free list). -/
structure LedgerState where
  txs : List Transaction
  imported : Nat
  skipped : Nat
  excluded : Nat
  errors : List ImportErr
  existing : List String
deriving Repr, DecidableEq

/-- `set.add` on the existing-ID set. -/
def insertId (l : List String) (i : String) : List String :=
  if l.contains i then l else l ++ [i]

/-- The fiscal-year filter `if fiscal_year and tx.booking_date.year !=
fiscal_year: continue` (note `0` is falsy in Python). -/
def fyKeep (fy : Option Nat) (tx : Transaction) : Bool :=
  match fy with
  | none => true
  | some y => y == 0 || tx.bookingDate.year == y

def markExcluded (tx : Transaction) : Transaction :=
  { tx with
    isExcluded := true
    exclusionReason := some "Mastercard settlement - details in PDF" }

/-- One iteration of the `import_file` row loop: length guard, parse
(errors recorded, row dropped), fiscal-year filter, settlement exclusion,
duplicate check, accept. -/
def importStep (force : Bool) (fy : Option Nat) (fileName : String)
    (lineNum : Nat) (row : List String) (st : LedgerState) : LedgerState :=
  if row.length < 15 then st
  else
    match parseRowE row fileName with
    | .error e =>
      { st with errors := st.errors ++ [⟨fileName, e, some lineNum, some (joinSep ";" row)⟩] }
    | .ok tx =>
      if !fyKeep fy tx then st
      else if isMastercardSettlement tx then
        { st with
          excluded := st.excluded + 1
          txs := st.txs ++ [markExcluded tx] }
      else if st.existing.contains tx.id && !force then
        { st with skipped := st.skipped + 1 }
      else
        { st with
          txs := st.txs ++ [tx]
          existing := insertId st.existing tx.id
          imported := st.imported + 1 }

def importRowsFrom (force : Bool) (fy : Option Nat) (fileName : String) :
    Nat → List (List String) → LedgerState → LedgerState
  | _, [], st => st
  | n, row :: rest, st =>
    importRowsFrom force fy fileName (n + 1) rest (importStep force fy fileName n row st)

def initLedgerState (existing : List String) : LedgerState :=
  ⟨[], 0, 0, 0, [], existing⟩

/-- `CSVImporter.import_file` on the already-split data rows (the 13
discarded header lines put the first data row at line number 14). -/
def importRows (rows : List (List String)) (fileName : String)
    (fy : Option Nat) (force : Bool) (existing : List String) : LedgerState :=
  importRowsFrom force fy fileName 14 rows (initLedgerState existing)

/-- Classification of one data row by the import loop, independent of the
running state: skipped (malformed or filtered out), failed (parse error,
recorded and dropped), an excluded settlement, or a normal candidate. -/
inductive RowClass
  | skip
  | fail (msg : String)
  | excl (tx : Transaction)
  | norm (tx : Transaction)
deriving Repr, DecidableEq

def rowClass (fy : Option Nat) (fileName : String) (row : List String) : RowClass :=
  if row.length < 15 then .skip
  else
    match parseRowE row fileName with
    | .error e => .fail e
    | .ok tx =>
      if !fyKeep fy tx then .skip
      else if isMastercardSettlement tx then .excl tx
      else .norm tx

def RowClass.exclTx : RowClass → Option Transaction
  | .excl tx => some tx
  | _ => none

def isNormRow (fy : Option Nat) (fileName : String) (row : List String) : Bool :=
  match rowClass fy fileName row with
  | .norm _ => true
  | _ => false

/-- The number of rows an import pass subjects to the duplicate check. -/
def countNorm (fy : Option Nat) (fileName : String) (rows : List (List String)) : Nat :=
  (rows.filter (isNormRow fy fileName)).length

/-! ## Statement text-line parser (`src/services/pdf_importer.py`) -/

/-- Consume a `DD/MM` token: exactly two digits, a slash, two digits. -/
def parseDDMM (l : List Char) : Option (Nat × Nat × List Char) :=
  match l with
  | d1 :: d2 :: s :: m1 :: m2 :: rest =>
    if d1.isDigit && d2.isDigit && s == '/' && m1.isDigit && m2.isDigit then
      some (digitsToNat [d1, d2], digitsToNat [m1, m2], rest)
    else none
  | _ => none

/-- Consume a `\s+` run: at least one whitespace character. -/
def skipSpaces1 (l : List Char) : Option (List Char) :=
  match l with
  | c :: rest => if pyIsSpace c then some (rest.dropWhile pyIsSpace) else none
  | [] => none

/-- Split `desc \s+ amount` from the right, mirroring how the anchored
pattern `(.+?)\s+(\d+(?:[.,]\d+)?)\s*EUR([+-])$` resolves: the amount is
the maximal trailing `digits[.,]digits` or `digits` token immediately
preceded by whitespace. -/
def amountSplit (mid : List Char) : Option (List Char × List Char) :=
  let rmid := mid.reverse
  let ds1 := rmid.takeWhile Char.isDigit
  let r1 := rmid.dropWhile Char.isDigit
  if ds1.isEmpty then none
  else
    match r1 with
    | [] => none
    | sep :: r2 =>
      if sep == '.' || sep == ',' then
        let ds2 := r2.takeWhile Char.isDigit
        let r3 := r2.dropWhile Char.isDigit
        if !ds2.isEmpty && (match r3 with | c :: _ => pyIsSpace c | [] => false) then
          some ((r3.dropWhile pyIsSpace).reverse, ds2.reverse ++ sep :: ds1.reverse)
        else none
      else if pyIsSpace sep then
        some ((r1.dropWhile pyIsSpace).reverse, ds1.reverse)
      else none

/-- The body of `PDFImporter._parse_text_line` up to the sequence number,
which enters only the `transaction_number` field and is attached by
`parseTextLine` below.  `nowYear` models the ambient `datetime.now().year`
used when no statement year was found and no fiscal year was supplied. -/
def parseTextLineCore (line : String) (sourceFile : String) (statementNumber : String)
    (statementYear : Option Nat) (nowYear : Nat) : Option Transaction :=
  let l := pyStripChars line.data
  if l.isEmpty then none
  else
    match parseDDMM l with
    | none => none
    | some (d1, m1, r1) =>
      match skipSpaces1 r1 with
      | none => none
      | some r2 =>
        match parseDDMM r2 with
        | none => none
        | some (d2, m2, r3) =>
          match skipSpaces1 r3 with
          | none => none
          | some r4 =>
            match r4.reverse with
            | sgn :: 'R' :: 'U' :: 'E' :: rrest =>
              if sgn == '+' || sgn == '-' then
                let mid := (rrest.dropWhile pyIsSpace).reverse
                match amountSplit mid with
                | none => none
                | some (descRaw, amtChars) =>
                  if descRaw.isEmpty then none
                  else
                    let description := String.mk (pyStripChars descRaw)
                    -- Python `statement_year or datetime.now().year` (0 is falsy)
                    let year :=
                      match statementYear with
                      | some y => if y == 0 then nowYear else y
                      | none => nowYear
                    if validDate year m1 d1 && validDate year m2 d2 then
                      match parseBelgianAmount (String.mk amtChars) with
                      | .error _ => none
                      | .ok amt0 =>
                        let amount := if sgn == '-' then amt0.negAbs else amt0.absD
                        if amount.isZero then none
                        else
                          let bookingDate : PyDate := ⟨year, m1, d1⟩
                          let valueDate : PyDate := ⟨year, m2, d2⟩
                          let dateHash :=
                            md5Hex8 (bookingDate.iso ++ "|" ++ amount.repr8 ++ "|" ++ description)
                          let txId :=
                            "MC-" ++ statementNumber ++ "-" ++ bookingDate.ymd ++ "-" ++ dateHash
                          some { id := txId
                                 sourceFile := sourceFile
                                 sourceType := "mastercard_pdf"
                                 statementNumber := some statementNumber
                                 transactionNumber := none
                                 bookingDate := bookingDate
                                 valueDate := valueDate
                                 amount := amount
                                 currency := "EUR"
                                 counterpartyName :=
                                   if description = "" then none
                                   else some (String.mk (description.data.take 100))
                                 description := some description }
                    else none
              else none
            | _ => none

/-- `PDFImporter._parse_text_line`: the parsed line with the caller's
running sequence number recorded as the transaction number. -/
def parseTextLine (line : String) (sourceFile : String) (statementNumber : String)
    (sequence : Nat) (statementYear : Option Nat) (nowYear : Nat) : Option Transaction :=
  (parseTextLineCore line sourceFile statementNumber statementYear nowYear).map
    fun tx => { tx with transactionNumber := some (toString sequence) }

/-! ## Rule extractor (`src/services/rule_extractor.py`) -/

/-- An entry of the ambiguous-patterns report. -/
structure AmbiguousPattern where
  pattern : String
  categories : List (String × Nat)
  total : Nat
deriving Repr, DecidableEq

/-- Total occurrences of a pattern (`sum(categories.values())`). -/
def sumCounts (cats : List (String × Nat)) : Nat :=
  (cats.map Prod.snd).sum

/-- `max(categories.items(), key=lambda x: x[1])`: the first entry with
the maximal count, in insertion order. -/
def maxByCount : List (String × Nat) → String × Nat
  | [] => ("", 0)
  | x :: xs => xs.foldl (fun b a => if b.2 < a.2 then a else b) x

/-- Stable insertion for the descending-by-total sort of
`sorted(mappings.items(), key=lambda x: -sum(x[1].values()))`. -/
def insertByTotal (e : String × List (String × Nat)) :
    List (String × List (String × Nat)) → List (String × List (String × Nat))
  | [] => [e]
  | s :: rest =>
    if sumCounts e.2 < sumCounts s.2 then s :: insertByTotal e rest
    else e :: s :: rest

def sortByTotalDesc : List (String × List (String × Nat)) →
    List (String × List (String × Nat))
  | [] => []
  | e :: rest => insertByTotal e (sortByTotalDesc rest)

/-- `f"rule-{n:03d}"`. -/
def ruleIdStr (n : Nat) : String := "rule-" ++ padZeros 3 n

/-- Accumulator of `RuleExtractor._generate_rules`. -/
structure GenAcc where
  rules : List CategoryRule
  ambiguous : List AmbiguousPattern
  priority : Int
deriving Repr

def mkExtractedRule (pattern target : String) (acc : GenAcc) : CategoryRule :=
  { id := ruleIdStr (acc.rules.length + 1)
    pattern := pattern
    patternType := "contains"
    matchField := "counterparty_name"
    targetCategory := target
    priority := acc.priority
    enabled := true
    isTherapeutic := none
    source := "extracted"
    notes := none }

/-- The body of the `_generate_rules` loop for one pattern.  The dominance
test embeds the float comparison `dominant / total < 0.8` as the exact
`5 * dominant < 4 * total`, which agrees with the double-precision
computation for every total the program can accumulate. -/
def processPattern (minOccurrences : Nat) (acc : GenAcc)
    (e : String × List (String × Nat)) : GenAcc :=
  if sumCounts e.2 < minOccurrences then acc
  else if 1 < e.2.length then
    if 5 * (maxByCount e.2).2 < 4 * sumCounts e.2 then
      { acc with ambiguous := acc.ambiguous ++ [⟨e.1, e.2, sumCounts e.2⟩] }
    else
      { acc with
        rules := acc.rules ++ [mkExtractedRule e.1 (maxByCount e.2).1 acc]
        priority := acc.priority + 1 }
  else
    match e.2 with
    | [] => acc  -- unreachable: the accumulator only builds non-empty maps
    | c :: _ =>
      { acc with
        rules := acc.rules ++ [mkExtractedRule e.1 c.1 acc]
        priority := acc.priority + 1 }

/-- `RuleExtractor._generate_rules`: emit rules and ambiguous reports from
the pattern-to-category frequency table (an insertion-ordered association
list, like the Python dict). -/
def generateRules (minOccurrences : Nat)
    (mappings : List (String × List (String × Nat))) :
    List CategoryRule × List AmbiguousPattern :=
  let acc := (sortByTotalDesc mappings).foldl (processPattern minOccurrences) ⟨[], [], 10⟩
  (acc.rules, acc.ambiguous)

/-- The dedup pass of `extract_rules_from_excel_files`: keep the first
rule for each case-insensitively distinct pattern. -/
def dedupByPattern (seen : List String) : List CategoryRule → List CategoryRule
  | [] => []
  | r :: rest =>
    if seen.contains (lowerStr r.pattern) then dedupByPattern seen rest
    else r :: dedupByPattern (lowerStr r.pattern :: seen) rest

/-- The renumber pass: `rule.priority = (i + 1) * 10; rule.id =
f"rule-{i + 1:03d}"`. -/
def renumberFrom (i : Nat) : List CategoryRule → List CategoryRule
  | [] => []
  | r :: rest =>
    { r with priority := ((i + 1) * 10 : Int), id := ruleIdStr (i + 1) } :: renumberFrom (i + 1) rest

/-- The merge performed by `extract_rules_from_excel_files` over the
per-file rule lists: concatenate, deduplicate by case-insensitive pattern,
renumber sequentially. -/
def mergeExtractedRules (ruleLists : List (List CategoryRule)) : List CategoryRule :=
  renumberFrom 0 (dedupByPattern [] ruleLists.flatten)

example :
    generateRules 2 [("acme", [("cat1", 6), ("cat2", 4)])] =
      ([], [⟨"acme", [("cat1", 6), ("cat2", 4)], 10⟩]) := by decide
example :
    (generateRules 2 [("acme", [("cat1", 9), ("cat2", 1)])]).1.map
        (fun r => (r.pattern, r.targetCategory)) = [("acme", "cat1")] := by decide

/-! ## Concrete inputs used to instantiate the results below -/

def c1RuleCp : CategoryRule :=
  { id := "r-cp", pattern := "shared", patternType := "contains",
    matchField := "counterparty_name", targetCategory := "cat-cp", priority := 10 }

def c1RuleDesc : CategoryRule :=
  { id := "r-desc", pattern := "brood", patternType := "contains",
    matchField := "description", targetCategory := "cat-desc", priority := 20 }

def c1Tx : Transaction :=
  { id := "00012-0001", sourceFile := "t.csv", sourceType := "bank_csv",
    statementNumber := some "00012", transactionNumber := some "0001",
    bookingDate := ⟨2025, 2, 1⟩, valueDate := ⟨2025, 2, 1⟩, amount := ⟨-1050, -2⟩,
    counterpartyName := some "Shared Intermediary",
    description := some "Brood aankoop", ownAccount := some "BE68539007547034" }

/-- An account-type lookup declaring every account a partnership account. -/
def maatschapLookup : String → String := fun _ => "maatschap"

def c2RuleDesc : CategoryRule :=
  { id := "r2-desc", pattern := "xyz", patternType := "contains",
    matchField := "description", targetCategory := "cat-d", priority := 10 }

def c2RuleCp : CategoryRule :=
  { id := "r2-cp", pattern := "bakker", patternType := "contains",
    matchField := "counterparty_name", targetCategory := "cat-c", priority := 30 }

def c2Tx : Transaction :=
  { id := "00012-0002", sourceFile := "t.csv", sourceType := "bank_csv",
    statementNumber := some "00012", transactionNumber := some "0002",
    bookingDate := ⟨2025, 2, 1⟩, valueDate := ⟨2025, 2, 1⟩, amount := ⟨-1050, -2⟩,
    counterpartyName := some "Bakkerij Jans",
    description := some "Aankoop", ownAccount := some "BE68539007547034" }

/-- `c2Tx` with a manual override but no category. -/
def c2TxManual : Transaction := { c2Tx with isManualOverride := true }

def c4Rule : CategoryRule :=
  { id := "r4", pattern := "bank", patternType := "contains",
    matchField := "description", targetCategory := "bankkosten", priority := 10,
    isTherapeutic := some true }

def c4Tx : Transaction :=
  { id := "00012-0003", sourceFile := "t.csv", sourceType := "bank_csv",
    statementNumber := some "00012", transactionNumber := some "0003",
    bookingDate := ⟨2025, 2, 1⟩, valueDate := ⟨2025, 2, 1⟩, amount := ⟨-500, -2⟩,
    description := some "Bankkosten januari" }

def c4GoodRule : CategoryRule :=
  { id := "r4g", pattern := "consult", patternType := "contains",
    matchField := "description", targetCategory := "omzet", priority := 10,
    isTherapeutic := some true }

def c4TxOmzet : Transaction :=
  { id := "00012-0006", sourceFile := "t.csv", sourceType := "bank_csv",
    statementNumber := some "00012", transactionNumber := some "0006",
    bookingDate := ⟨2025, 2, 1⟩, valueDate := ⟨2025, 2, 1⟩, amount := ⟨6000, -2⟩,
    description := some "Consultatie postnataal" }

def c5Rule : CategoryRule :=
  { id := "r5", pattern := "brood", patternType := "contains",
    matchField := "description", targetCategory := "onthaal", priority := 10 }

def c5TxExcluded : Transaction :=
  { id := "00012-0004", sourceFile := "t.csv", sourceType := "bank_csv",
    statementNumber := some "00012", transactionNumber := some "0004",
    bookingDate := ⟨2025, 2, 1⟩, valueDate := ⟨2025, 2, 1⟩, amount := ⟨-1050, -2⟩,
    description := some "Brood aankoop", category := some "onthaal",
    isManualOverride := true, isExcluded := true,
    exclusionReason := some "Mastercard settlement - details in PDF" }

def c5TxManual : Transaction :=
  { id := "00012-0005", sourceFile := "t.csv", sourceType := "bank_csv",
    statementNumber := some "00012", transactionNumber := some "0005",
    bookingDate := ⟨2025, 2, 1⟩, valueDate := ⟨2025, 2, 1⟩, amount := ⟨-1050, -2⟩,
    description := some "Brood aankoop", category := some "vervoer",
    isManualOverride := true }

def c3RowMc : List String :=
  ["BE68539007547034", "01/02/2025", "00012", "0001", "", "MASTERCARD",
   "", "", "MASTERCARD AFREKENING", "01/02/2025", "-100,00", "EUR", "", "", ""]

def c3RowOk : List String :=
  ["BE68539007547034", "01/02/2025", "00012", "0002", "BE01234567890123",
   "BAKKERIJ JANS", "", "", "AANKOOP BROOD", "01/02/2025", "-10,50", "EUR",
   "GKCCBEBB", "BE", "BETALING"]

def c3Run1 : LedgerState := importRows [c3RowMc, c3RowOk] "test.csv" none false []

def c3Run2 : LedgerState :=
  importRows [c3RowMc, c3RowOk] "test.csv" none false c3Run1.existing

def c10RowMc : List String :=
  ["BE68539007547034", "03/02/2025", "00013", "0001", "", "",
   "", "", "KREDIETKAART AFREKENING VISA", "03/02/2025", "-250,00", "EUR", "", "", ""]

def c10RowOk : List String :=
  ["BE68539007547034", "03/02/2025", "00013", "0002", "BE01234567890123",
   "APOTHEEK CENTRUM", "", "", "MEDISCH MATERIAAL", "03/02/2025", "-42,00", "EUR",
   "", "", ""]

def c6Map46 : List (String × List (String × Nat)) :=
  [("acme", [("cat1", 6), ("cat2", 4)])]

def c6Map91 : List (String × List (String × Nat)) :=
  [("acme", [("cat1", 9), ("cat2", 1)])]

def c8Line : String := "03/10 06/10 SP TALES.COM PROVO US 38,51 EUR-"

def c8Row : List String :=
  ["BE68539007547034", "05/02/2025", "", "", "", "",
   "", "", "BEATS KOSTEN", "05/02/2025", "-1,25", "EUR", "", "", ""]

def c9RuleA : CategoryRule :=
  { id := "rule-001", pattern := "Shop", patternType := "contains",
    matchField := "counterparty_name", targetCategory := "cat1", priority := 10,
    source := "extracted" }

def c9RuleB : CategoryRule :=
  { id := "rule-001", pattern := "SHOP", patternType := "contains",
    matchField := "counterparty_name", targetCategory := "cat2", priority := 10,
    source := "extracted" }

set_option maxRecDepth 10000

/-! ## Shared lemmas about the rule-matching loop -/

theorem tryRules_cons (tx : Transaction) (r : CategoryRule) (l : List CategoryRule) :
    tryRules tx (r :: l) =
      if fires tx r then (applyRule tx r, true, some r.id) else tryRules tx l := by
  rcases Bool.eq_false_or_eq_true r.enabled with he | he <;>
    rcases Bool.eq_false_or_eq_true (matchesRule r (getFieldValue tx r.matchField))
      with hm | hm <;>
    simp [tryRules, fires, he, hm]

theorem tryRules_no_fire (tx : Transaction) :
    ∀ l : List CategoryRule, (∀ r ∈ l, fires tx r = false) →
      tryRules tx l = (tx, false, none)
  | [], _ => rfl
  | r :: rest, h => by
    rw [tryRules_cons, if_neg (by simp [h r (by simp)])]
    exact tryRules_no_fire tx rest fun s hs => h s (by simp [hs])

theorem tryRules_append_fire (tx : Transaction) (r : CategoryRule)
    (post : List CategoryRule) :
    ∀ pre : List CategoryRule, (∀ s ∈ pre, fires tx s = false) →
      fires tx r = true →
      tryRules tx (pre ++ r :: post) = (applyRule tx r, true, some r.id)
  | [], _, hr => by rw [List.nil_append, tryRules_cons, if_pos hr]
  | s :: pre, h, hr => by
    rw [List.cons_append, tryRules_cons, if_neg (by simp [h s (by simp)])]
    exact tryRules_append_fire tx r post pre (fun u hu => h u (by simp [hu])) hr

theorem tryRules_fired_mem (tx : Transaction) :
    ∀ l : List CategoryRule, (tryRules tx l).2.1 = true →
      ∃ r ∈ l, fires tx r = true ∧ tryRules tx l = (applyRule tx r, true, some r.id)
  | [], h => by simp [tryRules] at h
  | r :: rest, h => by
    rw [tryRules_cons] at h ⊢
    by_cases hf : fires tx r = true
    · exact ⟨r, by simp, hf, by rw [if_pos hf]⟩
    · rw [if_neg hf] at h ⊢
      obtain ⟨s, hs, h1, h2⟩ := tryRules_fired_mem tx rest h
      exact ⟨s, by simp [hs], h1, h2⟩

theorem tryRules_exists_fire (tx : Transaction) :
    ∀ l : List CategoryRule, (∃ r ∈ l, fires tx r = true) →
      (tryRules tx l).2.1 = true
  | [], h => by simp at h
  | r :: rest, h => by
    rw [tryRules_cons]
    by_cases hf : fires tx r = true
    · rw [if_pos hf]
    · rw [if_neg hf]
      obtain ⟨s, hs, h1⟩ := h
      rcases List.mem_cons.mp hs with rfl | hmem
      · exact absurd h1 hf
      · exact tryRules_exists_fire tx rest ⟨s, hmem, h1⟩

theorem tryRules_filter_eq (tx : Transaction) (p : CategoryRule → Bool) :
    ∀ l : List CategoryRule, (∀ r ∈ l, p r = false → fires tx r = false) →
      tryRules tx (l.filter p) = tryRules tx l
  | [], _ => rfl
  | r :: rest, h => by
    rw [List.filter_cons]
    by_cases hp : p r = true
    · rw [if_pos hp, tryRules_cons, tryRules_cons]
      by_cases hf : fires tx r = true
      · rw [if_pos hf, if_pos hf]
      · rw [if_neg hf, if_neg hf]
        exact tryRules_filter_eq tx p rest fun s hs => h s (by simp [hs])
    · rw [if_neg hp, tryRules_cons,
        if_neg (by simp [h r (by simp) (by simpa using hp)])]
      exact tryRules_filter_eq tx p rest fun s hs => h s (by simp [hs])

theorem tryRules_not_fired (tx : Transaction) :
    ∀ l : List CategoryRule, (tryRules tx l).2.1 = false → (tryRules tx l).1 = tx
  | [], _ => rfl
  | r :: rest, h => by
    rw [tryRules_cons] at h ⊢
    by_cases hf : fires tx r = true
    · rw [if_pos hf] at h; simp at h
    · rw [if_neg hf] at h ⊢
      exact tryRules_not_fired tx rest h

/-! ## Shared lemmas about the priority sort -/

theorem insertByPriority_perm (r : CategoryRule) :
    ∀ l : List CategoryRule, (insertByPriority r l).Perm (r :: l)
  | [] => List.Perm.refl _
  | s :: rest => by
    unfold insertByPriority
    by_cases hlt : s.priority < r.priority
    · rw [if_pos hlt]
      exact ((insertByPriority_perm r rest).cons s).trans (List.Perm.swap r s rest)
    · rw [if_neg hlt]

theorem sortByPriority_perm :
    ∀ l : List CategoryRule, (sortByPriority l).Perm l
  | [] => List.Perm.refl _
  | r :: rest =>
    (insertByPriority_perm r (sortByPriority rest)).trans
      ((sortByPriority_perm rest).cons r)

theorem mem_sortByPriority {a : CategoryRule} {l : List CategoryRule} :
    a ∈ sortByPriority l ↔ a ∈ l :=
  (sortByPriority_perm l).mem_iff

/-! ## Shared lemmas about `categorize` -/

theorem categorize_skip_manual (c : Categorizer) (tx : Transaction)
    (h : tx.isManualOverride = true) : categorize c tx false = (tx, false, none) := by
  cases hcat : tx.category.isSome <;>
    cases hex : tx.isExcluded <;> simp [categorize, hcat, hex, h]

theorem categorize_eligible (c : Categorizer) (tx : Transaction) (force : Bool)
    (h1 : tx.category = none) (h2 : tx.isExcluded = false)
    (h3 : tx.isManualOverride = false) :
    categorize c tx force =
      if accountTypeFor c tx = "maatschap" then
        (if (tryRules tx c.descriptionRules).2.1 then tryRules tx c.descriptionRules
         else tryRules (tryRules tx c.descriptionRules).1 c.counterpartyRules)
      else tryRules tx c.rules := by
  simp [categorize, h1, h2, h3]

theorem applyRule_category (tx : Transaction) (r : CategoryRule) :
    (applyRule tx r).category = some r.targetCategory := by
  unfold applyRule; cases r.isTherapeutic <;> rfl

theorem applyRule_matchedRuleId (tx : Transaction) (r : CategoryRule) :
    (applyRule tx r).matchedRuleId = some r.id := by
  unfold applyRule; cases r.isTherapeutic <;> rfl

theorem applyRule_isManualOverride (tx : Transaction) (r : CategoryRule) :
    (applyRule tx r).isManualOverride = false := by
  unfold applyRule; cases r.isTherapeutic <;> rfl

/-! ## C1 — rule priority order -/

/-- C1, counterexample.  The claim universally quantifies over every rule
set and transaction, but on a `'maatschap'` (partnership) account the
engine runs description rules before counterparty rules: with an enabled
priority-10 counterparty rule and an enabled priority-20 description rule
both matching, the transaction receives the priority-20 description rule's
category, not the priority-10 rule's. -/
theorem claim1_counterexample :
    c1RuleCp.enabled = true ∧ c1RuleDesc.enabled = true ∧
    c1RuleCp.priority = 10 ∧ c1RuleDesc.priority = 20 ∧
    fires c1Tx c1RuleCp = true ∧ fires c1Tx c1RuleDesc = true ∧
    c1Tx.category = none ∧ c1Tx.isExcluded = false ∧
    c1Tx.isManualOverride = false ∧
    (categorize (Categorizer.init [c1RuleCp, c1RuleDesc] (some maatschapLookup))
        c1Tx false).1.category = some "cat-desc" ∧
    (categorize (Categorizer.init [c1RuleCp, c1RuleDesc] (some maatschapLookup))
        c1Tx false).2.2 = some "r-desc" ∧
    ¬ (categorize (Categorizer.init [c1RuleCp, c1RuleDesc] (some maatschapLookup))
        c1Tx false).1.category = some c1RuleCp.targetCategory := by
  decide

/-- C1 (amended): on an account whose type does not resolve to the
partnership type `'maatschap'`, the engine evaluates the full rule list in
ascending priority order and stops at the first firing rule: with two
enabled rules of priorities 10 and 20 both matching an eligible
transaction, the priority-10 rule's category and id are assigned whichever
order the rules appear in the input list; and, in any rule list, once the
first firing rule is reached the result does not depend on the rules after
it. -/
theorem claim1_priority_order
    (r1 r2 : CategoryRule) (g : Option (String → String)) (tx : Transaction)
    (hacct : accountTypeFor (Categorizer.init [r1, r2] g) tx ≠ "maatschap")
    (hcat : tx.category = none) (hex : tx.isExcluded = false)
    (hman : tx.isManualOverride = false)
    (hp1 : r1.priority = 10) (hp2 : r2.priority = 20)
    (hf1 : fires tx r1 = true) (hf2 : fires tx r2 = true) :
    (categorize (Categorizer.init [r1, r2] g) tx false =
        (applyRule tx r1, true, some r1.id) ∧
      categorize (Categorizer.init [r2, r1] g) tx false =
        (applyRule tx r1, true, some r1.id) ∧
      (applyRule tx r1).category = some r1.targetCategory ∧
      (applyRule tx r1).matchedRuleId = some r1.id) ∧
    ∀ (tx0 : Transaction) (pre post : List CategoryRule) (r : CategoryRule),
      (∀ s ∈ pre, fires tx0 s = false) → fires tx0 r = true →
      tryRules tx0 (pre ++ r :: post) = (applyRule tx0 r, true, some r.id) := by
  have hsort12 : sortByPriority [r1, r2] = [r1, r2] := by
    simp [sortByPriority, insertByPriority, hp1, hp2]
  have hsort21 : sortByPriority [r2, r1] = [r1, r2] := by
    simp [sortByPriority, insertByPriority, hp1, hp2]
  have hacct2 : accountTypeFor (Categorizer.init [r2, r1] g) tx ≠ "maatschap" := hacct
  have hrules : ∀ rules : List CategoryRule,
      (Categorizer.init rules g).rules = sortByPriority rules := fun _ => rfl
  have htr : tryRules tx [r1, r2] = (applyRule tx r1, true, some r1.id) := by
    rw [tryRules_cons, if_pos hf1]
  refine ⟨⟨?_, ?_, applyRule_category tx r1, applyRule_matchedRuleId tx r1⟩,
    fun tx0 pre post r hpre hr => tryRules_append_fire tx0 r post pre hpre hr⟩
  · rw [categorize_eligible _ _ _ hcat hex hman, if_neg hacct, hrules, hsort12, htr]
  · rw [categorize_eligible _ _ _ hcat hex hman, if_neg hacct2, hrules, hsort21, htr]

/-- C1, witness: the amended theorem applied to the two concrete rules of
the counterexample on a standard account, in the order that puts the
priority-10 rule last. -/
theorem claim1_witness :
    categorize (Categorizer.init [c1RuleDesc, c1RuleCp] none) c1Tx false =
      (applyRule c1Tx c1RuleCp, true, some c1RuleCp.id) :=
  (claim1_priority_order c1RuleCp c1RuleDesc none c1Tx (by decide) (by decide)
    (by decide) (by decide) (by decide) (by decide) (by decide) (by decide)).1.2.1

/-! ## C2 — two-phase matching for partnership accounts -/

theorem fires_unknown_field (tx : Transaction) (r : CategoryRule)
    (h1 : ¬ r.matchField = "counterparty_name")
    (h2 : ¬ r.matchField = "description")
    (h3 : ¬ r.matchField = "counterparty_iban") : fires tx r = false := by
  simp [fires, matchesRule, getFieldValue, h1, h2, h3]

/-- C2, counterexample.  The claim omits the manual-override guard: an
uncategorized, non-excluded transaction on a partnership account whose
`is_manual_override` flag is set is skipped outright, so the matching
counterparty rule does not fire even though no description rule matches. -/
theorem claim2_counterexample :
    c2TxManual.category = none ∧ c2TxManual.isExcluded = false ∧
    c2TxManual.isManualOverride = true ∧
    accountTypeFor (Categorizer.init [c2RuleDesc, c2RuleCp] (some maatschapLookup))
      c2TxManual = "maatschap" ∧
    (∀ r ∈ [c2RuleDesc, c2RuleCp], isDescriptionField r = true →
      fires c2TxManual r = false) ∧
    (∃ r ∈ [c2RuleDesc, c2RuleCp], isCounterpartyField r = true ∧
      fires c2TxManual r = true) ∧
    categorize (Categorizer.init [c2RuleDesc, c2RuleCp] (some maatschapLookup))
      c2TxManual false = (c2TxManual, false, none) := by
  decide

/-- C2 (amended): for every uncategorized, non-excluded, and
not-manually-overridden transaction on a `'maatschap'` (partnership)
account, when no enabled description-field rule matches but some enabled
counterparty-field rule does, the engine falls through to phase 2 and
applies the first matching counterparty rule; on an account whose type is
not `'maatschap'` the identical rule set yields the identical result,
because the non-counterparty rules do not fire anywhere in the full
priority-ordered list. -/
theorem claim2_two_phase
    (rules : List CategoryRule) (g1 g2 : Option (String → String)) (tx : Transaction)
    (hcat : tx.category = none) (hex : tx.isExcluded = false)
    (hman : tx.isManualOverride = false)
    (h1 : accountTypeFor (Categorizer.init rules g1) tx = "maatschap")
    (h2 : accountTypeFor (Categorizer.init rules g2) tx ≠ "maatschap")
    (hdesc : ∀ r ∈ rules, isDescriptionField r = true → fires tx r = false)
    (hcp : ∃ r ∈ rules, isCounterpartyField r = true ∧ fires tx r = true) :
    (tryRules tx ((sortByPriority rules).filter isCounterpartyField)).2.1 = true ∧
    categorize (Categorizer.init rules g1) tx false =
      tryRules tx ((sortByPriority rules).filter isCounterpartyField) ∧
    categorize (Categorizer.init rules g2) tx false =
      tryRules tx ((sortByPriority rules).filter isCounterpartyField) ∧
    ∃ r ∈ rules, isCounterpartyField r = true ∧ fires tx r = true ∧
      (tryRules tx ((sortByPriority rules).filter isCounterpartyField)).1.category =
        some r.targetCategory ∧
      (tryRules tx ((sortByPriority rules).filter isCounterpartyField)).2.2 =
        some r.id := by
  have hdescSorted : ∀ r ∈ (sortByPriority rules).filter isDescriptionField,
      fires tx r = false := by
    intro r hr
    obtain ⟨hmem, hfield⟩ := List.mem_filter.mp hr
    exact hdesc r (mem_sortByPriority.mp hmem) hfield
  have hphase1 : tryRules tx ((sortByPriority rules).filter isDescriptionField) =
      (tx, false, none) :=
    tryRules_no_fire tx _ hdescSorted
  have hfired : (tryRules tx ((sortByPriority rules).filter isCounterpartyField)).2.1 =
      true := by
    obtain ⟨r, hmem, hfield, hf⟩ := hcp
    exact tryRules_exists_fire tx _
      ⟨r, List.mem_filter.mpr ⟨mem_sortByPriority.mpr hmem, hfield⟩, hf⟩
  have hdrules : (Categorizer.init rules g1).descriptionRules =
      (sortByPriority rules).filter isDescriptionField := rfl
  have hcrules : (Categorizer.init rules g1).counterpartyRules =
      (sortByPriority rules).filter isCounterpartyField := rfl
  have hmaat : categorize (Categorizer.init rules g1) tx false =
      tryRules tx ((sortByPriority rules).filter isCounterpartyField) := by
    rw [categorize_eligible _ _ _ hcat hex hman, if_pos h1]
    simp only [hdrules, hcrules, hphase1]
    simp
  have hstd : categorize (Categorizer.init rules g2) tx false =
      tryRules tx ((sortByPriority rules).filter isCounterpartyField) := by
    rw [categorize_eligible _ _ _ hcat hex hman, if_neg h2]
    have : tryRules tx ((sortByPriority rules).filter isCounterpartyField) =
        tryRules tx (sortByPriority rules) := by
      apply tryRules_filter_eq
      intro r hmem hcpf
      by_cases hdf : isDescriptionField r = true
      · exact hdesc r (mem_sortByPriority.mp hmem) hdf
      · have hcpf' := hcpf
        simp only [isCounterpartyField, Bool.or_eq_false_iff, beq_eq_false_iff_ne,
          ne_eq] at hcpf'
        simp only [isDescriptionField, beq_eq_false_iff_ne, ne_eq,
          Bool.not_eq_true] at hdf
        exact fires_unknown_field tx r hcpf'.1 hdf hcpf'.2
    rw [this]; rfl
  obtain ⟨r, hmem, hf, heq⟩ :=
    tryRules_fired_mem tx ((sortByPriority rules).filter isCounterpartyField) hfired
  obtain ⟨hmemS, hfield⟩ := List.mem_filter.mp hmem
  refine ⟨hfired, hmaat, hstd,
    r, mem_sortByPriority.mp hmemS, hfield, hf, ?_, ?_⟩
  · rw [heq]; exact applyRule_category tx r
  · rw [heq]

/-- C2, witness: the amended theorem at a concrete two-rule set where only
the counterparty rule matches, on a partnership lookup and on no lookup. -/
theorem claim2_witness :
    categorize (Categorizer.init [c2RuleDesc, c2RuleCp] (some maatschapLookup))
        c2Tx false =
      tryRules c2Tx ((sortByPriority [c2RuleDesc, c2RuleCp]).filter isCounterpartyField) ∧
    categorize (Categorizer.init [c2RuleDesc, c2RuleCp] none) c2Tx false =
      tryRules c2Tx ((sortByPriority [c2RuleDesc, c2RuleCp]).filter isCounterpartyField) ∧
    (tryRules c2Tx
        ((sortByPriority [c2RuleDesc, c2RuleCp]).filter isCounterpartyField)).1.category =
      some "cat-c" := by
  have h := claim2_two_phase [c2RuleDesc, c2RuleCp] (some maatschapLookup) none c2Tx
    (by decide) (by decide) (by decide) (by decide) (by decide) (by decide)
    ⟨c2RuleCp, by decide, by decide, by decide⟩
  exact ⟨h.2.1, h.2.2.1, by decide⟩

/-! ## C4 — the therapeutic-flag invariant -/

theorem categorize_result_cases (c : Categorizer) (tx : Transaction) (force : Bool) :
    (categorize c tx force).1 = tx ∨
    ∃ r, (r ∈ c.rules ∨ r ∈ c.descriptionRules ∨ r ∈ c.counterpartyRules) ∧
      fires tx r = true ∧ (categorize c tx force).1 = applyRule tx r := by
  unfold categorize
  split_ifs with h1 h2 h3 h4 h5
  · exact Or.inl rfl
  · exact Or.inl rfl
  · exact Or.inl rfl
  · obtain ⟨r, hmem, hfr, heq⟩ := tryRules_fired_mem tx c.descriptionRules h5
    rw [heq]
    exact Or.inr ⟨r, Or.inr (Or.inl hmem), hfr, rfl⟩
  · rw [tryRules_not_fired tx c.descriptionRules (by simpa using h5)]
    by_cases hp2 : (tryRules tx c.counterpartyRules).2.1 = true
    · obtain ⟨r, hmem, hfr, heq⟩ := tryRules_fired_mem tx c.counterpartyRules hp2
      rw [heq]
      exact Or.inr ⟨r, Or.inr (Or.inr hmem), hfr, rfl⟩
    · exact Or.inl (tryRules_not_fired tx c.counterpartyRules (by simpa using hp2))
  · by_cases hp : (tryRules tx c.rules).2.1 = true
    · obtain ⟨r, hmem, hfr, heq⟩ := tryRules_fired_mem tx c.rules hp
      rw [heq]
      exact Or.inr ⟨r, Or.inl hmem, hfr, rfl⟩
    · exact Or.inl (tryRules_not_fired tx c.rules (by simpa using hp))

theorem applyRule_therapOk (tx : Transaction) (r : CategoryRule)
    (htx : tx.isTherapeutic = true → tx.category = some "omzet")
    (hr : r.isTherapeutic.getD tx.isTherapeutic = true → r.targetCategory = "omzet") :
    (applyRule tx r).isTherapeutic = true → (applyRule tx r).category = some "omzet" := by
  intro h
  rw [applyRule_category]
  cases hrt : r.isTherapeutic with
  | none =>
    have hth : (applyRule tx r).isTherapeutic = tx.isTherapeutic := by
      unfold applyRule; rw [hrt]
    rw [hth] at h
    rw [hr (by rw [hrt]; exact h)]
  | some b =>
    have hth : (applyRule tx r).isTherapeutic = b := by
      unfold applyRule; rw [hrt]
    rw [hth] at h
    rw [hr (by rw [hrt]; exact h)]

theorem mem_init_rules {r : CategoryRule} {rules : List CategoryRule}
    {g : Option (String → String)} :
    (r ∈ (Categorizer.init rules g).rules ∨
      r ∈ (Categorizer.init rules g).descriptionRules ∨
      r ∈ (Categorizer.init rules g).counterpartyRules) → r ∈ rules := by
  intro h
  rcases h with h | h | h
  · exact mem_sortByPriority.mp h
  · exact mem_sortByPriority.mp (List.mem_filter.mp h).1
  · exact mem_sortByPriority.mp (List.mem_filter.mp h).1

/-- C4, counterexample.  A rule whose therapeutic override is true but
whose target category is not `'omzet'` passes rule validation, and the
engine applies both the category and the flag by plain attribute
assignment, producing a transaction that violates the invariant the
`Transaction` constructor enforces. -/
theorem claim4_counterexample :
    c4Rule.isTherapeutic = some true ∧
    c4Rule.targetCategory = "bankkosten" ∧
    c4Tx.isTherapeutic = false ∧
    (categorize (Categorizer.init [c4Rule] none) c4Tx false).1.isTherapeutic = true ∧
    (categorize (Categorizer.init [c4Rule] none) c4Tx false).1.category =
      some "bankkosten" ∧
    ¬ ((categorize (Categorizer.init [c4Rule] none) c4Tx false).1.isTherapeutic = true →
        (categorize (Categorizer.init [c4Rule] none) c4Tx false).1.category =
          some "omzet") := by
  decide

/-- C4 (amended): the invariant that `is_therapeutic` implies the
`'omzet'` category holds for every transaction the constructor accepts,
and the engine preserves it exactly under the side condition that the
effective flag of each applied rule — its override, or the transaction's
prior flag when the override is null — being true implies the rule targets
`'omzet'`; a rule with a true override and a different target (see the
counterexample) violates it. -/
theorem claim4_therapeutic_invariant :
    (∀ t t' : Transaction, validateTransaction t = .ok t' →
      t'.isTherapeutic = true → t'.category = some "omzet") ∧
    (∀ (tx : Transaction) (r : CategoryRule),
      (tx.isTherapeutic = true → tx.category = some "omzet") →
      (r.isTherapeutic.getD tx.isTherapeutic = true → r.targetCategory = "omzet") →
      (applyRule tx r).isTherapeutic = true →
      (applyRule tx r).category = some "omzet") ∧
    (∀ (rules : List CategoryRule) (g : Option (String → String))
      (tx : Transaction) (force : Bool),
      (tx.isTherapeutic = true → tx.category = some "omzet") →
      (∀ r ∈ rules, r.isTherapeutic.getD tx.isTherapeutic = true →
        r.targetCategory = "omzet") →
      (categorize (Categorizer.init rules g) tx force).1.isTherapeutic = true →
      (categorize (Categorizer.init rules g) tx force).1.category = some "omzet") := by
  refine ⟨?_, applyRule_therapOk, ?_⟩
  · intro t t' h
    unfold validateTransaction at h
    split_ifs at h with h1 h2 h3 h4
    any_goals simp at h
    subst h
    intro ht
    by_contra hc
    exact h4 ⟨ht, hc⟩
  · intro rules g tx force htx hrules
    rcases categorize_result_cases (Categorizer.init rules g) tx force with h | ⟨r, hmem, hfr, heq⟩
    · rw [h]; exact htx
    · rw [heq]
      exact applyRule_therapOk tx r htx (hrules r (mem_init_rules hmem))

/-- C4, witness: construction rejects a violating record, and the engine
instantiated with a well-formed therapeutic rule keeps the invariant. -/
theorem claim4_witness :
    (categorize (Categorizer.init [c4GoodRule] none) c4TxOmzet false).1.isTherapeutic =
      true ∧
    (categorize (Categorizer.init [c4GoodRule] none) c4TxOmzet false).1.category =
      some "omzet" :=
  ⟨by decide,
    claim4_therapeutic_invariant.2.2 [c4GoodRule] none c4TxOmzet false
      (by decide) (by decide) (by decide)⟩

/-! ## C5 — manual-override protection -/

theorem categorize_fired_spec (c : Categorizer) (tx : Transaction) (force : Bool)
    (h : (categorize c tx force).2.1 = true) :
    ∃ r, fires tx r = true ∧
      categorize c tx force = (applyRule tx r, true, some r.id) := by
  unfold categorize at h ⊢
  split_ifs at h ⊢ with h1 h2 h3 h4 h5
  · obtain ⟨r, _, hfr, heq⟩ := tryRules_fired_mem tx c.descriptionRules h5
    exact ⟨r, hfr, heq⟩
  · rw [tryRules_not_fired tx c.descriptionRules (by simpa using h5)] at h ⊢
    obtain ⟨r, _, hfr, heq⟩ := tryRules_fired_mem tx c.counterpartyRules h
    exact ⟨r, hfr, heq⟩
  · obtain ⟨r, _, hfr, heq⟩ := tryRules_fired_mem tx c.rules h
    exact ⟨r, hfr, heq⟩

theorem catAllGo_fst (c : Categorizer) (force : Bool) :
    ∀ (txs : List Transaction) (st : CatStats),
      (catAllGo c force txs st).1 =
        txs.map (fun tx => if tx.isExcluded then tx else (categorize c tx force).1)
  | [], _ => rfl
  | tx :: rest, st => by
    rcases Bool.eq_false_or_eq_true tx.isExcluded with hex | hex <;>
      simp [catAllGo, catAllStep, hex, catAllGo_fst c force rest]

/-- C5, counterexample.  A transaction that is both manually overridden
and excluded is left entirely unchanged by `categorize_all(force=true)`
even though an enabled rule matches it: the exclusion guard fires before
the force flag is consulted, so "force re-categorizes it" fails. -/
theorem claim5_counterexample :
    c5TxExcluded.isManualOverride = true ∧
    fires c5TxExcluded c5Rule = true ∧
    (categorizeAll (Categorizer.init [c5Rule] none) [c5TxExcluded] true).1 =
      [c5TxExcluded] := by
  decide

/-- C5 (amended): `categorize_all(force=false)` maps each non-excluded
transaction through `categorize` and leaves every manually-overridden
transaction exactly as it was; `categorize_all(force=true)` re-categorizes
a manually-overridden transaction — clearing `is_manual_override`, hence
changing it — provided the transaction is not excluded and some enabled
applicable rule matches it. -/
theorem claim5_manual_override_protection :
    (∀ (c : Categorizer) (txs : List Transaction) (force : Bool),
      (categorizeAll c txs force).1 =
        txs.map (fun tx => if tx.isExcluded then tx else (categorize c tx force).1)) ∧
    (∀ (c : Categorizer) (tx : Transaction), tx.isManualOverride = true →
      categorize c tx false = (tx, false, none)) ∧
    (∀ (c : Categorizer) (txs : List Transaction),
      (∀ tx ∈ txs, tx.isManualOverride = true) →
      (categorizeAll c txs false).1 = txs) ∧
    (∀ (c : Categorizer) (tx : Transaction), tx.isManualOverride = true →
      tx.isExcluded = false → (categorize c tx true).2.1 = true →
      (categorize c tx true).1.isManualOverride = false ∧
      (categorize c tx true).1 ≠ tx ∧
      ∃ r, fires tx r = true ∧
        categorize c tx true = (applyRule tx r, true, some r.id)) := by
  refine ⟨fun c txs force => catAllGo_fst c force txs _,
    fun c tx h => categorize_skip_manual c tx h, ?_, ?_⟩
  · intro c txs hall
    unfold categorizeAll
    rw [catAllGo_fst]
    induction txs with
    | nil => rfl
    | cons tx rest ih =>
      rw [List.map_cons, ih fun u hu => hall u (by simp [hu])]
      rcases Bool.eq_false_or_eq_true tx.isExcluded with hex | hex
      · rw [if_pos (by simp [hex])]
      · rw [if_neg (by simp [hex]), categorize_skip_manual c tx (hall tx (by simp))]
  · intro c tx hman hex hfired
    obtain ⟨r, hfr, heq⟩ := categorize_fired_spec c tx true hfired
    refine ⟨by rw [heq]; exact applyRule_isManualOverride tx r, ?_, r, hfr, heq⟩
    rw [heq]
    intro hcontra
    have : (applyRule tx r).isManualOverride = tx.isManualOverride :=
      congrArg Transaction.isManualOverride hcontra
    rw [applyRule_isManualOverride, hman] at this
    exact Bool.false_ne_true this

/-- C5, witness: a manually-overridden, non-excluded transaction with a
matching rule is untouched without force and changed with force. -/
theorem claim5_witness :
    categorize (Categorizer.init [c5Rule] none) c5TxManual false =
      (c5TxManual, false, none) ∧
    (categorize (Categorizer.init [c5Rule] none) c5TxManual true).1.isManualOverride =
      false ∧
    (categorize (Categorizer.init [c5Rule] none) c5TxManual true).1 ≠ c5TxManual :=
  ⟨claim5_manual_override_protection.2.1 _ c5TxManual (by decide),
    (claim5_manual_override_protection.2.2.2 _ c5TxManual (by decide) (by decide)
      (by decide)).1,
    (claim5_manual_override_protection.2.2.2 _ c5TxManual (by decide) (by decide)
      (by decide)).2.1⟩

/-! ## C7 — the amount normalizer -/

/-- C7: the amount normalizer parses `"1.234,56"` to exactly 1234.56,
`"-38,51"` to exactly -38.51, `"50"` to exactly 50, and rejects `"abc"`
with a parse error naming the original text (the general pipeline — strip
currency tokens and whitespace, extract a trailing or leading sign,
require a digit, replace `.` then `,`, reject non-decimal residues — is
the definition `parseBelgianAmount` these facts evaluate). -/
theorem claim7_amount_normalizer :
    parseBelgianAmount "1.234,56" = .ok ⟨123456, -2⟩ ∧
    Dec.val ⟨123456, -2⟩ = 1234.56 ∧
    parseBelgianAmount "-38,51" = .ok ⟨-3851, -2⟩ ∧
    Dec.val ⟨-3851, -2⟩ = -38.51 ∧
    parseBelgianAmount "50" = .ok ⟨50, 0⟩ ∧
    Dec.val ⟨50, 0⟩ = 50 ∧
    parseBelgianAmount "abc" = .error "Invalid Belgian amount: abc" := by
  refine ⟨by decide, ?_, by decide, ?_, by decide, ?_, by decide⟩ <;>
    norm_num [Dec.val]

/-! ## C8 — identity stability -/

theorem validateTransaction_ok_eq (t t' : Transaction)
    (h : validateTransaction t = .ok t') : t' = t := by
  unfold validateTransaction at h
  split_ifs at h
  any_goals simp at h
  exact h.symm

theorem exceptIsOk_exists {ε α : Type} (e : Except ε α) (h : exceptIsOk e = true) :
    ∃ a, e = .ok a := by
  cases e with
  | ok a => exact ⟨a, rfl⟩
  | error _ => simp [exceptIsOk] at h

/-- C8: transaction identities are deterministic functions of row content.
For a ledger row, the id is the statement-sequence pair when both are
present and otherwise the sentinel-prefixed content hash of date, amount
and description — in both cases a function of the row alone.  For a
statement text line, two parses with different sequence numbers (same
line, statement, and year context) produce the same id. -/
theorem claim8_identity_stability :
    (∀ (row : List String) (f : String) (tx : Transaction),
      parseRowE row f = .ok tx →
      tx.id =
        if pyStrip (colD row 2) ≠ "" ∧ pyStrip (colD row 3) ≠ "" then
          pyStrip (colD row 2) ++ "-" ++ pyStrip (colD row 3)
        else
          "NONUM-" ++ md5Hex8 (tx.bookingDate.iso ++ "|" ++ tx.amount.repr8 ++ "|" ++
            tx.description.getD "")) ∧
    (∀ (line f stmt : String) (seq1 seq2 : Nat) (sy : Option Nat) (ny : Nat)
      (tx1 tx2 : Transaction),
      parseTextLine line f stmt seq1 sy ny = some tx1 →
      parseTextLine line f stmt seq2 sy ny = some tx2 →
      tx1.id = tx2.id) := by
  constructor
  · intro row f tx h
    unfold parseRowE at h
    split at h
    · simp at h
    split at h
    · simp at h
    split at h
    · simp at h
    split at h
    · simp at h
    have heq := validateTransaction_ok_eq _ _ h
    subst heq
    by_cases hnum : pyStrip (colD row 2) ≠ "" ∧ pyStrip (colD row 3) ≠ ""
    · rw [if_pos hnum]
      show rowId row _ _ = _
      rw [rowId, if_pos hnum]
    · rw [if_neg hnum]
      show rowId row _ _ = _
      rw [rowId, if_neg hnum]
      rfl
  · intro line f stmt seq1 seq2 sy ny tx1 tx2 h1 h2
    unfold parseTextLine at h1 h2
    cases hc : parseTextLineCore line f stmt sy ny with
    | none => rw [hc] at h1; simp at h1
    | some tx0 =>
      rw [hc] at h1 h2
      simp only [Option.map_some'] at h1 h2
      cases h1
      cases h2
      rfl

/-- C8, witness: a numberless fee row takes the hash path, and the
concrete statement line parsed with sequence numbers 1 and 7 yields one
identity. -/
theorem claim8_witness :
    (∃ tx : Transaction, parseRowE c8Row "f.csv" = .ok tx ∧
      tx.id = "NONUM-" ++ md5Hex8 (tx.bookingDate.iso ++ "|" ++ tx.amount.repr8 ++ "|" ++
        tx.description.getD "")) ∧
    (∃ tx1 tx2 : Transaction,
      parseTextLine c8Line "f.pdf" "6287522061" 1 (some 2025) 2026 = some tx1 ∧
      parseTextLine c8Line "f.pdf" "6287522061" 7 (some 2025) 2026 = some tx2 ∧
      tx1.id = tx2.id) := by
  constructor
  · obtain ⟨tx, hp⟩ := exceptIsOk_exists (parseRowE c8Row "f.csv") (by decide)
    refine ⟨tx, hp, ?_⟩
    have := claim8_identity_stability.1 c8Row "f.csv" tx hp
    rwa [if_neg (by decide)] at this
  · obtain ⟨tx1, hp1⟩ := Option.isSome_iff_exists.mp
      (by decide :
        (parseTextLine c8Line "f.pdf" "6287522061" 1 (some 2025) 2026).isSome = true)
    obtain ⟨tx2, hp2⟩ := Option.isSome_iff_exists.mp
      (by decide :
        (parseTextLine c8Line "f.pdf" "6287522061" 7 (some 2025) 2026).isSome = true)
    exact ⟨tx1, tx2, hp1, hp2,
      claim8_identity_stability.2 c8Line "f.pdf" "6287522061" 1 7 (some 2025) 2026
        tx1 tx2 hp1 hp2⟩

/-! ## C3 and C10 — the ledger import loop -/

theorem importStep_class (force : Bool) (fy : Option Nat) (fileName : String)
    (lineNum : Nat) (row : List String) (st : LedgerState) :
    importStep force fy fileName lineNum row st =
      match rowClass fy fileName row with
      | .skip => st
      | .fail e =>
        { st with errors := st.errors ++ [⟨fileName, e, some lineNum, some (joinSep ";" row)⟩] }
      | .excl tx =>
        { st with excluded := st.excluded + 1, txs := st.txs ++ [markExcluded tx] }
      | .norm tx =>
        if st.existing.contains tx.id && !force then
          { st with skipped := st.skipped + 1 }
        else
          { st with
            txs := st.txs ++ [tx]
            existing := insertId st.existing tx.id
            imported := st.imported + 1 } := by
  unfold importStep rowClass
  split_ifs with h1
  · rfl
  · cases hp : parseRowE row fileName with
    | error e => rfl
    | ok tx =>
      dsimp only
      by_cases h2 : (!fyKeep fy tx) = true
      · simp only [if_pos h2]
      · simp only [if_neg h2]
        by_cases h3 : isMastercardSettlement tx = true
        · simp only [if_pos h3]
        · simp only [if_neg h3]

theorem rowClass_norm_inv {fy : Option Nat} {fileName : String} {row : List String}
    {tx : Transaction} (h : rowClass fy fileName row = .norm tx) :
    parseRowE row fileName = .ok tx := by
  unfold rowClass at h
  by_cases h1 : row.length < 15
  · rw [if_pos h1] at h; cases h
  · rw [if_neg h1] at h
    cases hp : parseRowE row fileName with
    | error e => rw [hp] at h; cases h
    | ok tx2 =>
      rw [hp] at h
      dsimp only at h
      by_cases h2 : (!fyKeep fy tx2) = true
      · rw [if_pos h2] at h; cases h
      · rw [if_neg h2] at h
        by_cases h3 : isMastercardSettlement tx2 = true
        · rw [if_pos h3] at h; cases h
        · rw [if_neg h3] at h
          cases h
          rfl

theorem rowClass_excl_inv {fy : Option Nat} {fileName : String} {row : List String}
    {tx : Transaction} (h : rowClass fy fileName row = .excl tx) :
    parseRowE row fileName = .ok tx ∧ isMastercardSettlement tx = true := by
  unfold rowClass at h
  by_cases h1 : row.length < 15
  · rw [if_pos h1] at h; cases h
  · rw [if_neg h1] at h
    cases hp : parseRowE row fileName with
    | error e => rw [hp] at h; cases h
    | ok tx2 =>
      rw [hp] at h
      dsimp only at h
      by_cases h2 : (!fyKeep fy tx2) = true
      · rw [if_pos h2] at h; cases h
      · rw [if_neg h2] at h
        by_cases h3 : isMastercardSettlement tx2 = true
        · rw [if_pos h3] at h
          cases h
          exact ⟨rfl, h3⟩
        · rw [if_neg h3] at h; cases h

theorem parseRowE_ok_flags {row : List String} {f : String} {tx : Transaction}
    (h : parseRowE row f = .ok tx) :
    tx.isExcluded = false ∧ tx.isTherapeutic = false ∧ tx.category = none := by
  unfold parseRowE at h
  split at h
  · simp at h
  split at h
  · simp at h
  split at h
  · simp at h
  split at h
  · simp at h
  have heq := validateTransaction_ok_eq _ _ h
  subst heq
  exact ⟨rfl, rfl, rfl⟩

theorem mem_insertId_self (l : List String) (i : String) : i ∈ insertId l i := by
  unfold insertId
  split_ifs with h
  · simpa using h
  · simp

theorem mem_insertId_of (l : List String) (i j : String) (h : j ∈ l) :
    j ∈ insertId l i := by
  unfold insertId
  split_ifs with h2
  · exact h
  · simp [h]

theorem mem_insertId_inv {l : List String} {i j : String} (h : j ∈ insertId l i) :
    j ∈ l ∨ j = i := by
  unfold insertId at h
  split_ifs at h with h2
  · exact Or.inl h
  · simpa using h

theorem importStep_existing_mono (force : Bool) (fy : Option Nat) (fileName : String)
    (lineNum : Nat) (row : List String) (st : LedgerState) (i : String)
    (h : i ∈ st.existing) :
    i ∈ (importStep force fy fileName lineNum row st).existing := by
  rw [importStep_class]
  cases rowClass fy fileName row with
  | skip => exact h
  | fail e => exact h
  | excl tx => exact h
  | norm tx =>
    dsimp only
    split_ifs with h2
    · exact h
    · exact mem_insertId_of _ _ _ h

theorem importStep_txs_mono (force : Bool) (fy : Option Nat) (fileName : String)
    (lineNum : Nat) (row : List String) (st : LedgerState) (tx : Transaction)
    (h : tx ∈ st.txs) :
    tx ∈ (importStep force fy fileName lineNum row st).txs := by
  rw [importStep_class]
  cases rowClass fy fileName row with
  | skip => exact h
  | fail e => exact h
  | excl tx2 => exact List.mem_append_left _ h
  | norm tx2 =>
    dsimp only
    split_ifs with h2
    · exact h
    · exact List.mem_append_left _ h

theorem importRowsFrom_existing_mono (force : Bool) (fy : Option Nat) (fileName : String) :
    ∀ (rows : List (List String)) (n : Nat) (st : LedgerState) (i : String),
      i ∈ st.existing → i ∈ (importRowsFrom force fy fileName n rows st).existing
  | [], _, _, _, h => h
  | row :: rest, n, st, i, h =>
    importRowsFrom_existing_mono force fy fileName rest (n + 1) _ i
      (importStep_existing_mono force fy fileName n row st i h)

theorem importRowsFrom_txs_mono (force : Bool) (fy : Option Nat) (fileName : String) :
    ∀ (rows : List (List String)) (n : Nat) (st : LedgerState) (tx : Transaction),
      tx ∈ st.txs → tx ∈ (importRowsFrom force fy fileName n rows st).txs
  | [], _, _, _, h => h
  | row :: rest, n, st, tx, h =>
    importRowsFrom_txs_mono force fy fileName rest (n + 1) _ tx
      (importStep_txs_mono force fy fileName n row st tx h)

theorem importStep_covers (force : Bool) (fy : Option Nat) (fileName : String)
    (lineNum : Nat) (row : List String) (st : LedgerState) (tx : Transaction)
    (h : rowClass fy fileName row = .norm tx) :
    tx.id ∈ (importStep force fy fileName lineNum row st).existing := by
  rw [importStep_class, h]
  dsimp only
  split_ifs with h2
  · have h2' : st.existing.contains tx.id = true ∧ (!force) = true := by simpa using h2
    simpa using h2'.1
  · exact mem_insertId_self _ _

theorem importRowsFrom_covers (force : Bool) (fy : Option Nat) (fileName : String) :
    ∀ (rows : List (List String)) (n : Nat) (st : LedgerState) (row : List String)
      (tx : Transaction), row ∈ rows → rowClass fy fileName row = .norm tx →
      tx.id ∈ (importRowsFrom force fy fileName n rows st).existing
  | [], _, _, _, _, hmem, _ => absurd hmem (by simp)
  | r :: rest, n, st, row, tx, hmem, hc => by
    rcases List.mem_cons.mp hmem with rfl | hmem2
    · exact importRowsFrom_existing_mono force fy fileName rest (n + 1) _ tx.id
        (importStep_covers force fy fileName n row st tx hc)
    · exact importRowsFrom_covers force fy fileName rest (n + 1) _ row tx hmem2 hc

theorem countNorm_cons_norm {fy : Option Nat} {fileName : String} {row : List String}
    {tx : Transaction} (hc : rowClass fy fileName row = .norm tx)
    (rest : List (List String)) :
    countNorm fy fileName (row :: rest) = countNorm fy fileName rest + 1 := by
  simp [countNorm, List.filter_cons, isNormRow, hc]

theorem countNorm_cons_other {fy : Option Nat} {fileName : String} {row : List String}
    (hc : isNormRow fy fileName row = false) (rest : List (List String)) :
    countNorm fy fileName (row :: rest) = countNorm fy fileName rest := by
  simp [countNorm, List.filter_cons, hc]

theorem isNormRow_false_of_class {fy : Option Nat} {fileName : String}
    {row : List String} (c : RowClass) (hc : rowClass fy fileName row = c)
    (hnot : ∀ tx, c ≠ .norm tx) : isNormRow fy fileName row = false := by
  unfold isNormRow
  rw [hc]
  cases c with
  | norm tx => exact absurd rfl (hnot tx)
  | skip => rfl
  | fail e => rfl
  | excl tx => rfl

theorem importRowsFrom_all_dup (fy : Option Nat) (fileName : String) :
    ∀ (rows : List (List String)) (n : Nat) (st : LedgerState),
      (∀ row ∈ rows, ∀ tx, rowClass fy fileName row = .norm tx → tx.id ∈ st.existing) →
      (importRowsFrom false fy fileName n rows st).imported = st.imported ∧
      (importRowsFrom false fy fileName n rows st).skipped =
        st.skipped + countNorm fy fileName rows ∧
      (importRowsFrom false fy fileName n rows st).existing = st.existing
  | [], _, st, _ => ⟨rfl, by simp [importRowsFrom, countNorm], rfl⟩
  | row :: rest, n, st, hall => by
    have hall' : ∀ r ∈ rest, ∀ tx, rowClass fy fileName r = .norm tx →
        tx.id ∈ st.existing :=
      fun r hr tx htx => hall r (by simp [hr]) tx htx
    simp only [importRowsFrom]
    rw [importStep_class]
    cases hc : rowClass fy fileName row with
    | skip =>
      have ih := importRowsFrom_all_dup fy fileName rest (n + 1) st hall'
      rw [countNorm_cons_other (isNormRow_false_of_class _ hc (by intro tx h; cases h)) rest]
      exact ih
    | fail e =>
      have ih := importRowsFrom_all_dup fy fileName rest (n + 1)
        { st with errors := st.errors ++
            [⟨fileName, e, some n, some (joinSep ";" row)⟩] } hall'
      rw [countNorm_cons_other (isNormRow_false_of_class _ hc (by intro tx h; cases h)) rest]
      exact ih
    | excl tx =>
      have ih := importRowsFrom_all_dup fy fileName rest (n + 1)
        { st with excluded := st.excluded + 1, txs := st.txs ++ [markExcluded tx] } hall'
      rw [countNorm_cons_other (isNormRow_false_of_class _ hc (by intro tx2 h; cases h)) rest]
      exact ih
    | norm tx =>
      have hcontains : st.existing.contains tx.id = true := by
        simpa using hall row (by simp) tx hc
      dsimp only
      rw [if_pos (by simpa using hcontains)]
      have ih := importRowsFrom_all_dup fy fileName rest (n + 1)
        { st with skipped := st.skipped + 1 } hall'
      rw [countNorm_cons_norm hc rest]
      exact ⟨ih.1, by rw [ih.2.1]; dsimp only; omega, ih.2.2⟩

theorem importRowsFrom_count (force : Bool) (fy : Option Nat) (fileName : String) :
    ∀ (rows : List (List String)) (n : Nat) (st : LedgerState),
      (importRowsFrom force fy fileName n rows st).imported +
        (importRowsFrom force fy fileName n rows st).skipped =
      st.imported + st.skipped + countNorm fy fileName rows
  | [], _, st => by simp [importRowsFrom, countNorm]
  | row :: rest, n, st => by
    simp only [importRowsFrom]
    rw [importStep_class]
    cases hc : rowClass fy fileName row with
    | skip =>
      rw [countNorm_cons_other (isNormRow_false_of_class _ hc (by intro tx h; cases h)) rest]
      exact importRowsFrom_count force fy fileName rest (n + 1) st
    | fail e =>
      rw [countNorm_cons_other (isNormRow_false_of_class _ hc (by intro tx h; cases h)) rest]
      exact importRowsFrom_count force fy fileName rest (n + 1) _
    | excl tx =>
      rw [countNorm_cons_other (isNormRow_false_of_class _ hc (by intro tx2 h; cases h)) rest]
      exact importRowsFrom_count force fy fileName rest (n + 1) _
    | norm tx =>
      rw [countNorm_cons_norm hc rest]
      dsimp only
      split_ifs with h2
      · have := importRowsFrom_count force fy fileName rest (n + 1)
          { st with skipped := st.skipped + 1 }
        dsimp only at this
        omega
      · have := importRowsFrom_count force fy fileName rest (n + 1)
          { st with
            txs := st.txs ++ [tx]
            existing := insertId st.existing tx.id
            imported := st.imported + 1 }
        dsimp only at this
        omega

/-- C3, counterexample.  A file containing a Mastercard-settlement row and
one ordinary row: the second pass re-returns the settlement row (one
transaction, not zero) because excluded rows bypass the duplicate check,
and its skipped count is 1 while the first pass returned 2 transactions. -/
theorem claim3_counterexample :
    c3Run1.txs.length = 2 ∧ c3Run1.imported = 1 ∧ c3Run1.excluded = 1 ∧
    c3Run2.imported = 0 ∧ c3Run2.skipped = 1 ∧ c3Run2.txs.length = 1 ∧
    c3Run2.txs ≠ [] ∧ c3Run2.skipped ≠ c3Run1.txs.length := by
  decide

/-- C3 (amended): re-importing the same rows with the existing-ID set
carried over and force unset imports zero new transactions on the second
pass, and the second pass's skipped-duplicate count equals the first
pass's imported count plus its skipped count (which equals the number of
transactions the first pass returned exactly when the file has no
settlement-excluded rows and no within-file duplicates; excluded rows are
returned again by the second pass and are never counted as skipped). -/
theorem claim3_dedup_idempotence (rows : List (List String)) (fileName : String)
    (fy : Option Nat) (existing0 : List String) :
    (importRows rows fileName fy false
      (importRows rows fileName fy false existing0).existing).imported = 0 ∧
    (importRows rows fileName fy false
      (importRows rows fileName fy false existing0).existing).skipped =
      (importRows rows fileName fy false existing0).imported +
        (importRows rows fileName fy false existing0).skipped := by
  have hcover : ∀ row ∈ rows, ∀ tx, rowClass fy fileName row = .norm tx →
      tx.id ∈ (importRows rows fileName fy false existing0).existing :=
    fun row hr tx htx =>
      importRowsFrom_covers false fy fileName rows 14 (initLedgerState existing0)
        row tx hr htx
  have h2 := importRowsFrom_all_dup fy fileName rows 14
    (initLedgerState (importRows rows fileName fy false existing0).existing) hcover
  have h1 := importRowsFrom_count false fy fileName rows 14 (initLedgerState existing0)
  refine ⟨h2.1, ?_⟩
  have hrun2 : (importRows rows fileName fy false
      (importRows rows fileName fy false existing0).existing).skipped =
      countNorm fy fileName rows := by
    have := h2.2.1
    simpa [importRows, initLedgerState] using this
  have hrun1 : (importRows rows fileName fy false existing0).imported +
      (importRows rows fileName fy false existing0).skipped =
      countNorm fy fileName rows := by
    simpa [importRows, initLedgerState] using h1
  rw [hrun2, hrun1]

theorem importRowsFrom_len (force : Bool) (fy : Option Nat) (fileName : String) :
    ∀ (rows : List (List String)) (n : Nat) (st : LedgerState),
      (importRowsFrom force fy fileName n rows st).txs.length +
        st.imported + st.excluded =
      st.txs.length + (importRowsFrom force fy fileName n rows st).imported +
        (importRowsFrom force fy fileName n rows st).excluded
  | [], _, _ => rfl
  | row :: rest, n, st => by
    simp only [importRowsFrom]
    rw [importStep_class]
    cases hc : rowClass fy fileName row with
    | skip => exact importRowsFrom_len force fy fileName rest (n + 1) st
    | fail e =>
      exact importRowsFrom_len force fy fileName rest (n + 1)
        { st with errors := st.errors ++
            [⟨fileName, e, some n, some (joinSep ";" row)⟩] }
    | excl tx =>
      have ih := importRowsFrom_len force fy fileName rest (n + 1)
        { st with excluded := st.excluded + 1, txs := st.txs ++ [markExcluded tx] }
      dsimp only at ih ⊢
      rw [List.length_append] at ih
      dsimp only [List.length_cons, List.length_nil] at ih
      omega
    | norm tx =>
      dsimp only
      split_ifs with h2
      · have ih := importRowsFrom_len force fy fileName rest (n + 1)
          { st with skipped := st.skipped + 1 }
        dsimp only at ih ⊢
        omega
      · have ih := importRowsFrom_len force fy fileName rest (n + 1)
          { st with
            txs := st.txs ++ [tx]
            existing := insertId st.existing tx.id
            imported := st.imported + 1 }
        dsimp only at ih ⊢
        rw [List.length_append] at ih
        dsimp only [List.length_cons, List.length_nil] at ih
        omega

theorem importRowsFrom_excl_reason (force : Bool) (fy : Option Nat) (fileName : String) :
    ∀ (rows : List (List String)) (n : Nat) (st : LedgerState),
      (∀ tx ∈ st.txs, tx.isExcluded = true →
        tx.exclusionReason = some "Mastercard settlement - details in PDF") →
      ∀ tx ∈ (importRowsFrom force fy fileName n rows st).txs,
        tx.isExcluded = true →
        tx.exclusionReason = some "Mastercard settlement - details in PDF"
  | [], _, _, h => h
  | row :: rest, n, st, h => by
    simp only [importRowsFrom]
    rw [importStep_class]
    cases hc : rowClass fy fileName row with
    | skip => exact importRowsFrom_excl_reason force fy fileName rest (n + 1) st h
    | fail e => exact importRowsFrom_excl_reason force fy fileName rest (n + 1) _ h
    | excl tx =>
      apply importRowsFrom_excl_reason force fy fileName rest (n + 1)
      intro tx2 hmem hex
      rcases List.mem_append.mp hmem with hmem2 | hmem2
      · exact h tx2 hmem2 hex
      · rw [List.mem_singleton.mp hmem2]; rfl
    | norm tx =>
      dsimp only
      split_ifs with h2
      · exact importRowsFrom_excl_reason force fy fileName rest (n + 1) _ h
      · apply importRowsFrom_excl_reason force fy fileName rest (n + 1)
        intro tx2 hmem hex
        rcases List.mem_append.mp hmem with hmem2 | hmem2
        · exact h tx2 hmem2 hex
        · rw [List.mem_singleton.mp hmem2] at hex
          have := (parseRowE_ok_flags (rowClass_norm_inv hc)).1
          rw [this] at hex
          cases hex

theorem importRowsFrom_existing_inv (force : Bool) (fy : Option Nat) (fileName : String) :
    ∀ (rows : List (List String)) (n : Nat) (st : LedgerState) (i : String),
      i ∈ (importRowsFrom force fy fileName n rows st).existing →
      i ∈ st.existing ∨
        ∃ tx ∈ (importRowsFrom force fy fileName n rows st).txs,
          tx.isExcluded = false ∧ tx.id = i
  | [], _, _, _, h => Or.inl h
  | row :: rest, n, st, i, h => by
    simp only [importRowsFrom] at h ⊢
    rw [importStep_class] at h ⊢
    cases hc : rowClass fy fileName row with
    | skip =>
      rw [hc] at h
      exact importRowsFrom_existing_inv force fy fileName rest (n + 1) st i h
    | fail e =>
      rw [hc] at h
      exact importRowsFrom_existing_inv force fy fileName rest (n + 1) _ i h
    | excl tx =>
      rw [hc] at h
      exact importRowsFrom_existing_inv force fy fileName rest (n + 1) _ i h
    | norm tx =>
      rw [hc] at h
      dsimp only at h ⊢
      split_ifs at h ⊢ with h2
      · exact importRowsFrom_existing_inv force fy fileName rest (n + 1) _ i h
      · rcases importRowsFrom_existing_inv force fy fileName rest (n + 1) _ i h with
          hin | hex
        · rcases mem_insertId_inv hin with hin2 | heq
          · exact Or.inl hin2
          · refine Or.inr ⟨tx, ?_, (parseRowE_ok_flags (rowClass_norm_inv hc)).1, heq.symm⟩
            exact importRowsFrom_txs_mono force fy fileName rest (n + 1) _ tx
              (List.mem_append_right _ (List.mem_singleton.mpr rfl))
        · exact Or.inr hex

theorem exclTx_some {c : RowClass} {tx : Transaction} (h : c.exclTx = some tx) :
    c = .excl tx := by
  cases c with
  | excl tx2 => simp only [RowClass.exclTx, Option.some.injEq] at h; rw [h]
  | skip => simp [RowClass.exclTx] at h
  | fail e => simp [RowClass.exclTx] at h
  | norm tx2 => simp [RowClass.exclTx] at h

/-- C10: for every ledger import run, the returned list has exactly
`transactions_imported + transactions_excluded` elements; every returned
excluded transaction carries the fixed Mastercard-settlement reason;
settlement rows bypass the duplicate check entirely — the step appends
them and bumps the excluded counter whatever the existing-ID set holds,
and never touches that set; and an id is in the final existing-ID set only
if it was supplied by the caller or belongs to a returned non-excluded
transaction. -/
theorem claim10_ledger_import_invariants :
    (∀ (rows : List (List String)) (fileName : String) (fy : Option Nat)
      (force : Bool) (existing0 : List String),
      (importRows rows fileName fy force existing0).txs.length =
        (importRows rows fileName fy force existing0).imported +
          (importRows rows fileName fy force existing0).excluded) ∧
    (∀ (rows : List (List String)) (fileName : String) (fy : Option Nat)
      (force : Bool) (existing0 : List String) (tx : Transaction),
      tx ∈ (importRows rows fileName fy force existing0).txs →
      tx.isExcluded = true →
      tx.exclusionReason = some "Mastercard settlement - details in PDF") ∧
    (∀ (force : Bool) (fy : Option Nat) (fileName : String) (n : Nat)
      (row : List String) (st : LedgerState) (tx : Transaction),
      rowClass fy fileName row = .excl tx →
      importStep force fy fileName n row st =
        { st with excluded := st.excluded + 1, txs := st.txs ++ [markExcluded tx] }) ∧
    (∀ (rows : List (List String)) (fileName : String) (fy : Option Nat)
      (force : Bool) (existing0 : List String) (i : String),
      i ∈ (importRows rows fileName fy force existing0).existing →
      i ∈ existing0 ∨
        ∃ tx ∈ (importRows rows fileName fy force existing0).txs,
          tx.isExcluded = false ∧ tx.id = i) := by
  refine ⟨?_, ?_, ?_, ?_⟩
  · intro rows fileName fy force existing0
    unfold importRows initLedgerState
    have h := importRowsFrom_len force fy fileName rows 14 ⟨[], 0, 0, 0, [], existing0⟩
    simp only [List.length_nil] at h
    omega
  · intro rows fileName fy force existing0 tx hmem hex
    exact importRowsFrom_excl_reason force fy fileName rows 14
      (initLedgerState existing0) (fun tx2 h2 => absurd h2 (by simp [initLedgerState]))
      tx hmem hex
  · intro force fy fileName n row st tx hc
    rw [importStep_class, hc]
  · intro rows fileName fy force existing0 i hi
    exact importRowsFrom_existing_inv force fy fileName rows 14
      (initLedgerState existing0) i hi

/-- C10, witness: a concrete run with a settlement row and a normal row;
the settlement row is appended and counted excluded even when its id is
already in the existing-ID set. -/
theorem claim10_witness :
    (importRows [c10RowMc, c10RowOk] "f.csv" none false ["pre"]).txs.length =
      (importRows [c10RowMc, c10RowOk] "f.csv" none false ["pre"]).imported +
        (importRows [c10RowMc, c10RowOk] "f.csv" none false ["pre"]).excluded ∧
    (∃ tx, rowClass none "f.csv" c10RowMc = .excl tx ∧
      importStep false none "f.csv" 14 c10RowMc (initLedgerState [tx.id]) =
        { initLedgerState [tx.id] with
          excluded := (initLedgerState [tx.id]).excluded + 1
          txs := (initLedgerState [tx.id]).txs ++ [markExcluded tx] }) ∧
    (∀ i ∈ (importRows [c10RowMc, c10RowOk] "f.csv" none false ["pre"]).existing,
      i ∈ ["pre"] ∨
        ∃ tx ∈ (importRows [c10RowMc, c10RowOk] "f.csv" none false ["pre"]).txs,
          tx.isExcluded = false ∧ tx.id = i) := by
  refine ⟨claim10_ledger_import_invariants.1 _ _ _ _ _, ?_,
    fun i hi => claim10_ledger_import_invariants.2.2.2 _ _ _ _ _ i hi⟩
  obtain ⟨tx, htx⟩ := Option.isSome_iff_exists.mp
    (by decide : (rowClass none "f.csv" c10RowMc).exclTx.isSome = true)
  have hc := exclTx_some htx
  exact ⟨tx, hc, claim10_ledger_import_invariants.2.2.1 false none "f.csv" 14 c10RowMc
    (initLedgerState [tx.id]) tx hc⟩

/-! ## C6 — rule-extraction dominance and ambiguity -/

theorem insertByTotal_perm (e : String × List (String × Nat)) :
    ∀ l : List (String × List (String × Nat)), (insertByTotal e l).Perm (e :: l)
  | [] => List.Perm.refl _
  | s :: rest => by
    unfold insertByTotal
    by_cases hlt : sumCounts e.2 < sumCounts s.2
    · rw [if_pos hlt]
      exact ((insertByTotal_perm e rest).cons s).trans (List.Perm.swap e s rest)
    · rw [if_neg hlt]

theorem sortByTotalDesc_perm :
    ∀ l : List (String × List (String × Nat)), (sortByTotalDesc l).Perm l
  | [] => List.Perm.refl _
  | e :: rest =>
    (insertByTotal_perm e (sortByTotalDesc rest)).trans
      ((sortByTotalDesc_perm rest).cons e)

theorem mem_sortByTotalDesc {e : String × List (String × Nat)}
    {l : List (String × List (String × Nat))} :
    e ∈ sortByTotalDesc l ↔ e ∈ l :=
  (sortByTotalDesc_perm l).mem_iff

theorem processPattern_rules_mono (minOccurrences : Nat) (acc : GenAcc)
    (e : String × List (String × Nat)) :
    ∃ s, (processPattern minOccurrences acc e).rules = acc.rules ++ s := by
  unfold processPattern
  split_ifs with h1 h2 h3
  · exact ⟨[], by simp⟩
  · exact ⟨[], by simp⟩
  · exact ⟨[mkExtractedRule e.1 (maxByCount e.2).1 acc], rfl⟩
  · cases e.2 with
    | nil => exact ⟨[], by simp⟩
    | cons c rest2 => exact ⟨[mkExtractedRule e.1 c.1 acc], rfl⟩

theorem processPattern_ambiguous_mono (minOccurrences : Nat) (acc : GenAcc)
    (e : String × List (String × Nat)) :
    ∃ s, (processPattern minOccurrences acc e).ambiguous = acc.ambiguous ++ s := by
  unfold processPattern
  split_ifs with h1 h2 h3
  · exact ⟨[], by simp⟩
  · exact ⟨[⟨e.1, e.2, sumCounts e.2⟩], rfl⟩
  · exact ⟨[], by simp⟩
  · cases e.2 with
    | nil => exact ⟨[], by simp⟩
    | cons c rest2 => exact ⟨[], by simp⟩

theorem foldl_rules_mono (minOccurrences : Nat) :
    ∀ (l : List (String × List (String × Nat))) (acc : GenAcc),
      ∃ s, (l.foldl (processPattern minOccurrences) acc).rules = acc.rules ++ s
  | [], acc => ⟨[], by simp⟩
  | e :: rest, acc => by
    obtain ⟨s1, h1⟩ := processPattern_rules_mono minOccurrences acc e
    obtain ⟨s2, h2⟩ := foldl_rules_mono minOccurrences rest (processPattern minOccurrences acc e)
    exact ⟨s1 ++ s2, by rw [List.foldl_cons, h2, h1, List.append_assoc]⟩

theorem foldl_ambiguous_mono (minOccurrences : Nat) :
    ∀ (l : List (String × List (String × Nat))) (acc : GenAcc),
      ∃ s, (l.foldl (processPattern minOccurrences) acc).ambiguous = acc.ambiguous ++ s
  | [], acc => ⟨[], by simp⟩
  | e :: rest, acc => by
    obtain ⟨s1, h1⟩ := processPattern_ambiguous_mono minOccurrences acc e
    obtain ⟨s2, h2⟩ :=
      foldl_ambiguous_mono minOccurrences rest (processPattern minOccurrences acc e)
    exact ⟨s1 ++ s2, by rw [List.foldl_cons, h2, h1, List.append_assoc]⟩

theorem foldl_emits_rule (minOccurrences : Nat) :
    ∀ (l : List (String × List (String × Nat))) (acc : GenAcc)
      (e : String × List (String × Nat)), e ∈ l →
      minOccurrences ≤ sumCounts e.2 → 1 < e.2.length →
      ¬ 5 * (maxByCount e.2).2 < 4 * sumCounts e.2 →
      ∃ r ∈ (l.foldl (processPattern minOccurrences) acc).rules,
        r.pattern = e.1 ∧ r.targetCategory = (maxByCount e.2).1 ∧
        r.patternType = "contains" ∧ r.matchField = "counterparty_name" ∧
        r.source = "extracted" ∧ r.enabled = true
  | [], _, _, hmem, _, _, _ => absurd hmem (by simp)
  | e2 :: rest, acc, e, hmem, hmin, hmulti, hdom => by
    rcases List.mem_cons.mp hmem with rfl | hmem2
    · rw [List.foldl_cons]
      have hstep : (processPattern minOccurrences acc e).rules =
          acc.rules ++ [mkExtractedRule e.1 (maxByCount e.2).1 acc] := by
        unfold processPattern
        rw [if_neg (by omega), if_pos hmulti, if_neg hdom]
      obtain ⟨s, hs⟩ :=
        foldl_rules_mono minOccurrences rest (processPattern minOccurrences acc e)
      refine ⟨mkExtractedRule e.1 (maxByCount e.2).1 acc, ?_, rfl, rfl, rfl, rfl, rfl, rfl⟩
      rw [hs, hstep]
      simp
    · rw [List.foldl_cons]
      exact foldl_emits_rule minOccurrences rest _ e hmem2 hmin hmulti hdom

theorem foldl_emits_ambiguous (minOccurrences : Nat) :
    ∀ (l : List (String × List (String × Nat))) (acc : GenAcc)
      (e : String × List (String × Nat)), e ∈ l →
      minOccurrences ≤ sumCounts e.2 → 1 < e.2.length →
      5 * (maxByCount e.2).2 < 4 * sumCounts e.2 →
      (⟨e.1, e.2, sumCounts e.2⟩ : AmbiguousPattern) ∈
        (l.foldl (processPattern minOccurrences) acc).ambiguous
  | [], _, _, hmem, _, _, _ => absurd hmem (by simp)
  | e2 :: rest, acc, e, hmem, hmin, hmulti, hdom => by
    rcases List.mem_cons.mp hmem with rfl | hmem2
    · rw [List.foldl_cons]
      have hstep : (processPattern minOccurrences acc e).ambiguous =
          acc.ambiguous ++ [⟨e.1, e.2, sumCounts e.2⟩] := by
        unfold processPattern
        rw [if_neg (by omega), if_pos hmulti, if_pos hdom]
      obtain ⟨s, hs⟩ :=
        foldl_ambiguous_mono minOccurrences rest (processPattern minOccurrences acc e)
      rw [hs, hstep]
      simp
    · rw [List.foldl_cons]
      exact foldl_emits_ambiguous minOccurrences rest _ e hmem2 hmin hmulti hdom

theorem processPattern_no_rule (minOccurrences : Nat) (acc : GenAcc)
    (e : String × List (String × Nat)) (p : String)
    (hacc : ∀ r ∈ acc.rules, r.pattern ≠ p)
    (he : e.1 = p → sumCounts e.2 < minOccurrences ∨
      (1 < e.2.length ∧ 5 * (maxByCount e.2).2 < 4 * sumCounts e.2)) :
    ∀ r ∈ (processPattern minOccurrences acc e).rules, r.pattern ≠ p := by
  unfold processPattern
  split_ifs with h1 h2 h3
  · exact hacc
  · exact hacc
  · intro r hmem
    rcases List.mem_append.mp hmem with hmem2 | hmem2
    · exact hacc r hmem2
    · rw [List.mem_singleton.mp hmem2]
      intro hp
      rcases he hp with hlt | ⟨_, hdom⟩
      · omega
      · exact h3 hdom
  · cases hc : e.2 with
    | nil => exact hacc
    | cons c rest2 =>
      intro r hmem
      rcases List.mem_append.mp hmem with hmem2 | hmem2
      · exact hacc r hmem2
      · rw [List.mem_singleton.mp hmem2]
        intro hp
        rcases he hp with hlt | ⟨hmulti, _⟩
        · omega
        · apply h2; rw [hc] at hmulti ⊢; exact hmulti

theorem foldl_no_rule (minOccurrences : Nat) (p : String) :
    ∀ (l : List (String × List (String × Nat))) (acc : GenAcc),
      (∀ r ∈ acc.rules, r.pattern ≠ p) →
      (∀ e ∈ l, e.1 = p → sumCounts e.2 < minOccurrences ∨
        (1 < e.2.length ∧ 5 * (maxByCount e.2).2 < 4 * sumCounts e.2)) →
      ∀ r ∈ (l.foldl (processPattern minOccurrences) acc).rules, r.pattern ≠ p
  | [], _, hacc, _ => hacc
  | e :: rest, acc, hacc, hall => by
    rw [List.foldl_cons]
    exact foldl_no_rule minOccurrences p rest _
      (processPattern_no_rule minOccurrences acc e p hacc (hall e (by simp)))
      (fun e2 he2 => hall e2 (by simp [he2]))

/-- C6: for every pattern in the frequency table (with pairwise distinct
pattern keys, as a dict guarantees) whose total occurrence count meets the
minimum and which maps to more than one category: when the dominant
category's share is at least 80% (exactly: not `5·dominant < 4·total`,
embedding the float test `dominant/total < 0.8`), a `contains` rule for
the dominant category on the counterparty-name field is emitted; when the
dominant share is below 80%, the pattern is reported ambiguous with its
full category breakdown and total, and no rule with that pattern is
emitted. -/
theorem claim6_rule_extraction_ambiguity
    (minOccurrences : Nat) (mappings : List (String × List (String × Nat)))
    (e : String × List (String × Nat)) (hmem : e ∈ mappings)
    (hnodup : (mappings.map Prod.fst).Nodup)
    (hmin : minOccurrences ≤ sumCounts e.2) (hmulti : 1 < e.2.length) :
    (¬ 5 * (maxByCount e.2).2 < 4 * sumCounts e.2 →
      ∃ r ∈ (generateRules minOccurrences mappings).1,
        r.pattern = e.1 ∧ r.targetCategory = (maxByCount e.2).1 ∧
        r.patternType = "contains" ∧ r.matchField = "counterparty_name") ∧
    (5 * (maxByCount e.2).2 < 4 * sumCounts e.2 →
      (⟨e.1, e.2, sumCounts e.2⟩ : AmbiguousPattern) ∈
        (generateRules minOccurrences mappings).2 ∧
      ∀ r ∈ (generateRules minOccurrences mappings).1, r.pattern ≠ e.1) := by
  have hmemS : e ∈ sortByTotalDesc mappings := mem_sortByTotalDesc.mpr hmem
  constructor
  · intro hdom
    obtain ⟨r, hr, h1, h2, h3, h4, _, _⟩ :=
      foldl_emits_rule minOccurrences (sortByTotalDesc mappings) ⟨[], [], 10⟩ e
        hmemS hmin hmulti hdom
    exact ⟨r, hr, h1, h2, h3, h4⟩
  · intro hdom
    refine ⟨foldl_emits_ambiguous minOccurrences (sortByTotalDesc mappings) ⟨[], [], 10⟩ e
      hmemS hmin hmulti hdom, ?_⟩
    have hnodupS : ((sortByTotalDesc mappings).map Prod.fst).Nodup :=
      (((sortByTotalDesc_perm mappings).map Prod.fst).nodup_iff).mpr hnodup
    have hinj := List.inj_on_of_nodup_map hnodupS
    intro r hr
    refine foldl_no_rule minOccurrences e.1 (sortByTotalDesc mappings) ⟨[], [], 10⟩
      (by intro r2 h2; cases h2) ?_ r hr
    intro e2 he2 hfst
    have : e2 = e := hinj he2 hmemS hfst
    rw [this]
    exact Or.inr ⟨hmulti, hdom⟩

/-- C6, witness: a pattern seen 10 times split 6/4 is reported ambiguous
with no rule, and a 9/1 split emits a `contains` rule for the 9-count
category. -/
theorem claim6_witness :
    ((⟨"acme", [("cat1", 6), ("cat2", 4)], 10⟩ : AmbiguousPattern) ∈
        (generateRules 2 c6Map46).2 ∧
      ∀ r ∈ (generateRules 2 c6Map46).1, r.pattern ≠ "acme") ∧
    ∃ r ∈ (generateRules 2 c6Map91).1,
      r.pattern = "acme" ∧ r.targetCategory = "cat1" ∧ r.patternType = "contains" := by
  constructor
  · exact (claim6_rule_extraction_ambiguity 2 c6Map46
      ("acme", [("cat1", 6), ("cat2", 4)]) (by decide) (by decide) (by decide)
      (by decide)).2 (by decide)
  · obtain ⟨r, hr, h1, h2, h3, _⟩ := (claim6_rule_extraction_ambiguity 2 c6Map91
      ("acme", [("cat1", 9), ("cat2", 1)]) (by decide) (by decide) (by decide)
      (by decide)).1 (by decide)
    exact ⟨r, hr, h1, h2.trans (by decide), h3⟩

/-! ## C9 — merging extracted rules across files -/

theorem renumberFrom_map_priority :
    ∀ (l : List CategoryRule) (k : Nat),
      (renumberFrom k l).map (fun r => r.priority) =
        (List.range l.length).map (fun i : Nat => (((i + k + 1) * 10 : Nat) : Int))
  | [], _ => rfl
  | r :: rest, k => by
    rw [renumberFrom, List.map_cons, List.length_cons, List.range_succ_eq_map,
      List.map_cons, List.map_map, renumberFrom_map_priority rest (k + 1)]
    congr 1
    · push_cast
      ring
    · apply List.map_congr_left
      intro i _
      simp only [Function.comp_apply]
      push_cast
      ring

theorem renumberFrom_map_id :
    ∀ (l : List CategoryRule) (k : Nat),
      (renumberFrom k l).map (fun r => r.id) =
        (List.range l.length).map (fun i => ruleIdStr (i + k + 1))
  | [], _ => rfl
  | r :: rest, k => by
    rw [renumberFrom, List.map_cons, List.length_cons, List.range_succ_eq_map,
      List.map_cons, List.map_map, renumberFrom_map_id rest (k + 1)]
    congr 1
    · rw [Nat.zero_add]
    · apply List.map_congr_left
      intro i _
      simp only [Function.comp_apply]
      congr 1
      omega

theorem renumberFrom_map_pattern :
    ∀ (l : List CategoryRule) (k : Nat),
      (renumberFrom k l).map (fun r => lowerStr r.pattern) =
        l.map (fun r => lowerStr r.pattern)
  | [], _ => rfl
  | r :: rest, k => by
    rw [renumberFrom, List.map_cons, List.map_cons,
      renumberFrom_map_pattern rest (k + 1)]

theorem renumberFrom_attrs :
    ∀ (l : List CategoryRule) (k : Nat) (r : CategoryRule),
      r ∈ renumberFrom k l →
      ∃ orig ∈ l, orig.pattern = r.pattern ∧ orig.targetCategory = r.targetCategory ∧
        orig.matchField = r.matchField ∧ orig.patternType = r.patternType
  | [], _, _, h => absurd h (by simp [renumberFrom])
  | s :: rest, k, r, h => by
    rw [renumberFrom] at h
    rcases List.mem_cons.mp h with rfl | hmem
    · exact ⟨s, by simp, rfl, rfl, rfl, rfl⟩
    · obtain ⟨orig, ho, h1, h2, h3, h4⟩ := renumberFrom_attrs rest (k + 1) r hmem
      exact ⟨orig, by simp [ho], h1, h2, h3, h4⟩

theorem dedupByPattern_sub :
    ∀ (l : List CategoryRule) (seen : List String) (r : CategoryRule),
      r ∈ dedupByPattern seen l → r ∈ l
  | [], _, _, h => absurd h (by simp [dedupByPattern])
  | s :: rest, seen, r, h => by
    rw [dedupByPattern] at h
    split_ifs at h with h2
    · exact List.mem_cons_of_mem s (dedupByPattern_sub rest seen r h)
    · rcases List.mem_cons.mp h with rfl | hmem
      · exact List.mem_cons_self _ _
      · exact List.mem_cons_of_mem s (dedupByPattern_sub rest _ r hmem)

theorem dedupByPattern_nodup :
    ∀ (l : List CategoryRule) (seen : List String),
      ((dedupByPattern seen l).map (fun r => lowerStr r.pattern)).Nodup ∧
      ∀ r ∈ dedupByPattern seen l, lowerStr r.pattern ∉ seen
  | [], _ => ⟨List.nodup_nil, by simp [dedupByPattern]⟩
  | s :: rest, seen => by
    rw [dedupByPattern]
    split_ifs with h2
    · exact dedupByPattern_nodup rest seen
    · have ih := dedupByPattern_nodup rest (lowerStr s.pattern :: seen)
      refine ⟨List.nodup_cons.mpr ⟨?_, ih.1⟩, ?_⟩
      · intro hmem
        obtain ⟨r, hr, heq⟩ := List.mem_map.mp hmem
        exact ih.2 r hr (heq ▸ List.mem_cons_self _ _)
      · intro r hr
        rcases List.mem_cons.mp hr with rfl | hmem
        · simpa using h2
        · exact fun hmem2 => ih.2 r hmem (List.mem_cons_of_mem _ hmem2)

/-- C9, counterexample.  Two input files extracting the same
(case-insensitively equal) pattern with different target categories: the
merge keeps the first-seen rule, so swapping the file order changes which
target category survives — the merged result is not independent of the
order in which the input files are supplied. -/
theorem claim9_counterexample :
    (mergeExtractedRules [[c9RuleA], [c9RuleB]]).map
        (fun r => (r.pattern, r.targetCategory)) = [("Shop", "cat1")] ∧
    (mergeExtractedRules [[c9RuleB], [c9RuleA]]).map
        (fun r => (r.pattern, r.targetCategory)) = [("SHOP", "cat2")] ∧
    mergeExtractedRules [[c9RuleA], [c9RuleB]] ≠
      mergeExtractedRules [[c9RuleB], [c9RuleA]] := by
  decide

/-- C9 (amended): merging the per-file rule lists deduplicates by
case-insensitive pattern text keeping the first occurrence, and renumbers
priorities to `(i+1)*10` and ids to `rule-XXX` sequentially; the result is
a deterministic function of the concatenated input sequence — every merged
rule's pattern, target category, match field and pattern kind come from
some input rule, and merged patterns are pairwise distinct
case-insensitively — but it is not independent of input file order (see
the counterexample). -/
theorem claim9_merge_rules (ruleLists : List (List CategoryRule)) :
    ((mergeExtractedRules ruleLists).map (fun r => lowerStr r.pattern)).Nodup ∧
    (mergeExtractedRules ruleLists).map (fun r => r.priority) =
      (List.range (mergeExtractedRules ruleLists).length).map
        (fun i : Nat => (((i + 1) * 10 : Nat) : Int)) ∧
    (mergeExtractedRules ruleLists).map (fun r => r.id) =
      (List.range (mergeExtractedRules ruleLists).length).map
        (fun i => ruleIdStr (i + 1)) ∧
    ∀ r ∈ mergeExtractedRules ruleLists, ∃ orig ∈ ruleLists.flatten,
      orig.pattern = r.pattern ∧ orig.targetCategory = r.targetCategory ∧
      orig.matchField = r.matchField ∧ orig.patternType = r.patternType := by
  have hlen : ∀ (l : List CategoryRule) (k : Nat), (renumberFrom k l).length = l.length := by
    intro l
    induction l with
    | nil => intro k; rfl
    | cons s rest ih => intro k; simp [renumberFrom, ih]
  refine ⟨?_, ?_, ?_, ?_⟩
  · rw [show mergeExtractedRules ruleLists =
      renumberFrom 0 (dedupByPattern [] ruleLists.flatten) from rfl,
      renumberFrom_map_pattern]
    exact (dedupByPattern_nodup ruleLists.flatten []).1
  · rw [show mergeExtractedRules ruleLists =
      renumberFrom 0 (dedupByPattern [] ruleLists.flatten) from rfl,
      renumberFrom_map_priority, hlen]
  · rw [show mergeExtractedRules ruleLists =
      renumberFrom 0 (dedupByPattern [] ruleLists.flatten) from rfl,
      renumberFrom_map_id, hlen]
  · intro r hr
    obtain ⟨orig, ho, h1, h2, h3, h4⟩ :=
      renumberFrom_attrs (dedupByPattern [] ruleLists.flatten) 0 r hr
    exact ⟨orig, dedupByPattern_sub _ _ _ ho, h1, h2, h3, h4⟩
